import Mathlib

/-!
Shallow embedding of `src/server.js` (a Socket.IO ride-dispatch server) and
verification of its specification claims.

Modelling conventions:
* JavaScript `Map` objects (`driversBySocket`, `rides`, `ride.offered`) are
  association lists; `Map.set` replaces in place when the key exists and
  appends otherwise, matching JS insertion-order iteration.
* JavaScript `Set` (`offeredSockets`) is a list with add-if-absent.
* `setTimeout` handles are natural numbers minted from a counter in the
  server state; pending timers live in a list, `clearTimeout` removes by
  handle, and a timer fires by an explicit `Ev.fireTimer` event.
* `Date.now()` is an integer field `time` of the server state, advanced by an
  explicit `Ev.tick` event; `new Date().toISOString()` stamps are modelled by
  that same integer clock.
* Numbers flowing through the geometry are rationals.  The floating-point
  Haversine body (lines 27-32 of server.js, `Math.sin`/`Math.asin` etc.) is a
  transcendental float computation with no exact rational embedding, so it is
  a parameter `hav : Coord → Coord → ℚ` of the whole development; the
  missing-argument sentinel branch of `distKm` (line 26) is embedded exactly.
* `uid()` (`Math.random().toString(36)`) is modelled as a fresh-name supply
  driven by a counter in the server state, matching its role of minting
  collision-free offer ids.
-/

abbrev SocketId := String
abbrev RideId := String
abbrev OfferId := String

/-- A latitude/longitude pair (`{lat, lng}` object in server.js). -/
structure Coord where
  lat : ℚ
  lng : ℚ
deriving DecidableEq, Repr

/-- `driversBySocket` record value: `{ driverId, available, last: {lat,lng,at} }`. -/
structure LastLoc where
  lat : ℚ
  lng : ℚ
  atMs : ℤ  -- the source field is named `at`, a reserved word in Lean
deriving DecidableEq, Repr

structure DriverInfo where
  driverId : Option String
  available : Bool
  last : Option LastLoc
deriving DecidableEq, Repr

/-- Offer status strings `'pending' | 'lost' | 'won'`. -/
inductive OfferStatus where
  | pending
  | lost
  | won
deriving DecidableEq, Repr

/-- `ride.offered` map value: `{ socketId, at, status }`. -/
structure Offer where
  socketId : SocketId
  atMs : ℤ  -- the source field is named `at`, a reserved word in Lean
  status : OfferStatus
deriving DecidableEq, Repr

/-- Ride status strings `'searching' | 'accepted' | 'failed'`. -/
inductive RideStatus where
  | searching
  | accepted
  | failed
deriving DecidableEq, Repr

/-- A `rides` map value (server.js lines 50-62 and 206-227). -/
structure Ride where
  status : RideStatus
  passengerSid : SocketId
  passengerName : String
  pickupAddress : String
  destinationAddress : String
  pickup : Coord
  dest : Coord
  routePolyline : Option String
  fare : Option ℚ
  offered : List (OfferId × Offer)
  offeredSockets : List SocketId
  winnerSid : Option SocketId
  round : ℕ
  timer : Option ℕ
deriving DecidableEq, Repr

/-- Environment-derived matching parameters (server.js lines 36-40).  The
field `QUICK_TEST_MODE` records the configuration flag named by the spec;
server.js never reads any such variable, which is exactly what the theorems
about it establish. -/
structure Config where
  BATCH_SIZE : ℕ
  OFFER_TTL_MS : ℤ
  MAX_ROUNDS : ℕ
  DRIVER_STALE_MS : ℤ
  QUICK_TEST_MODE : Bool
deriving DecidableEq, Repr

/-- Which `setTimeout` call site a pending timer came from. -/
inductive TimerKind where
  /-- the 2000 ms empty-round retry timer (line 95) -/
  | retry
  /-- the `OFFER_TTL_MS` batch timer (line 124) -/
  | batch
  /-- the 3000 ms room-eviction timer of `corrida_status` (line 320) -/
  | linger
deriving DecidableEq, Repr

structure PendingTimer where
  id : ℕ
  rideId : RideId
  kind : TimerKind
  delay : ℤ
deriving DecidableEq, Repr

/-- The whole mutable state of the server process. -/
structure ServerState where
  driversBySocket : List (SocketId × DriverInfo)
  rides : List (RideId × Ride)
  /-- membership of the `ride:<rideId>` rooms, keyed by rideId -/
  rooms : List (RideId × List SocketId)
  timers : List PendingTimer
  nextTimer : ℕ
  nextUid : ℕ
  time : ℤ
deriving DecidableEq, Repr

/-- Messages the server emits (`io.to(...).emit(...)` / `socket.emit(...)`). -/
inductive Event where
  | statusOk (ok : Bool) (tipo : Option String) (error : Option String)
  | corridaDisponivel (offerId : OfferId) (rideId : RideId)
      (passengerName pickupAddress : String) (pickupLocation : Coord)
      (destinationAddress : String) (destinationLocation : Coord)
      (routePolyline : Option String) (fare : Option ℚ) (expiresAt : ℤ)
  | offerLost (rideId : RideId) (reason : String)
  | offerWon (rideId : RideId)
  | semMotoristas (rideId : RideId)
  | corridaAceitaEv (rideId : RideId)
      (driverId driverName driverPhone vehicleModel vehiclePlate : Option String)
      (status message : String) (timestamp : ℤ) (approachPolyline : Option String)
  | driverLocalizacao (rideId : RideId) (lat lng : ℚ)
      (heading speed : Option ℚ) (timestamp : ℤ)
  | novaMensagem (sender : Option String) (message : String) (timestamp : ℤ)
  | corridaStatusAtualizada (rideId : RideId) (sender : Option String)
      (status : String) (timestamp : ℤ)
deriving DecidableEq, Repr

/-- An emission: either to one socket (`io.to(socketId)` / `socket.emit`) or to
a ride room (`io.to('ride:'+rideId)`). -/
inductive Emit where
  | toSocket (sid : SocketId) (ev : Event)
  | toRoom (rideId : RideId) (ev : Event)
deriving DecidableEq, Repr

/- ----------------- association-list primitives (JS Map/Set) ----------------- -/

/-- `Map.get`. -/
def alGet {β : Type} (k : String) : List (String × β) → Option β
  | [] => none
  | (k', v) :: xs => if k' = k then some v else alGet k xs

/-- `Map.set`: replace in place if the key exists, else append (JS insertion
order). -/
def alSet {β : Type} (k : String) (v : β) : List (String × β) → List (String × β)
  | [] => [(k, v)]
  | (k', v') :: xs => if k' = k then (k, v) :: xs else (k', v') :: alSet k v xs

/-- `Map.delete`. -/
def alDelete {β : Type} (k : String) : List (String × β) → List (String × β)
  | [] => []
  | (k', v') :: xs => if k' = k then xs else (k', v') :: alDelete k xs

/-- `Set.add` (JS sets keep insertion order and ignore duplicates). -/
def sadd (x : SocketId) (s : List SocketId) : List SocketId :=
  if x ∈ s then s else s ++ [x]

/- ----------------- geo utility and uid ----------------- -/

/-- server.js line 26: `if (!a || !b) return 9999;` — the Haversine body is
the parameter `hav` (see module comment). -/
def distKm (hav : Coord → Coord → ℚ) : Option Coord → Option Coord → ℚ
  | some a, some b => hav a b
  | _, _ => (9999 : ℚ)

/-- `uid()` modelled as a counter-driven fresh-name supply. -/
def uid (n : ℕ) : String := "u" ++ toString n

/- ----------------- candidate selector (lines 66-74) ----------------- -/

/-- An entry of the shortlist: `{ socketId, info, d }`. -/
structure Candidate where
  socketId : SocketId
  info : DriverInfo
  d : ℚ
deriving DecidableEq, Repr

/-- A driver record passes the two `continue` filters of
`listCandidateDrivers`: available, has a location, and that location is no
older than `DRIVER_STALE_MS`. -/
def freshEligible (cfg : Config) (time : ℤ) (info : DriverInfo) : Bool :=
  info.available &&
    match info.last with
    | none => false
    | some l => decide (time - l.atMs ≤ cfg.DRIVER_STALE_MS)

/-- The comparator `(a, b) => a.d - b.d` of line 73 as an ordering relation. -/
def candLe (a b : Candidate) : Prop := a.d ≤ b.d

instance : DecidableRel candLe := fun a b => inferInstanceAs (Decidable (a.d ≤ b.d))

instance : IsTotal Candidate candLe := ⟨fun a b => le_total a.d b.d⟩

instance : IsTrans Candidate candLe := ⟨fun _ _ _ h₁ h₂ => le_trans h₁ h₂⟩

/-- `listCandidateDrivers(pickup)` (server.js lines 66-74): collect available
drivers with a fresh location, pair them with their distance to pickup, and
sort ascending by distance (`sort((a,b) => a.d - b.d)` is a stable comparison
sort in Node, modelled by the stable `List.insertionSort`). -/
def listCandidateDrivers (cfg : Config) (hav : Coord → Coord → ℚ)
    (st : ServerState) (pickup : Coord) : List Candidate :=
  let fresh := st.driversBySocket.filterMap fun p =>
    if freshEligible cfg st.time p.2 then
      some ⟨p.1, p.2, distKm hav (p.2.last.map fun l => ⟨l.lat, l.lng⟩) (some pickup)⟩
    else none
  fresh.insertionSort candLe

/-- The batch of a dispatch round (server.js lines 80-82): drop drivers
already in `offeredSockets`, then `slice(0, BATCH_SIZE)`. -/
def dispatchBatch (cfg : Config) (hav : Coord → Coord → ℚ)
    (st : ServerState) (r : Ride) : List Candidate :=
  ((listCandidateDrivers cfg hav st r.pickup).filter
    fun c => !(r.offeredSockets.contains c.socketId)).take cfg.BATCH_SIZE

/- ----------------- dispatch round (lines 76-131) ----------------- -/

/-- Remove the pending timer a ride's `timer` field points at
(`clearTimeout(r.timer)`); `none` means nothing to clear. -/
def removeTimer (h : Option ℕ) (ts : List PendingTimer) : List PendingTimer :=
  match h with
  | none => ts
  | some hid => ts.filter fun t => t.id ≠ hid

/-- The offer-minting loop of the non-empty branch (server.js lines 103-120):
for each candidate mint an offerId, record a pending offer, add the socket to
`offeredSockets`, and emit an individualized `corrida_disponivel`. -/
def mintOffers (rideId : RideId) (time expiresAt : ℤ) :
    Ride → ℕ → List Candidate → Ride × ℕ × List Emit
  | r, u, [] => (r, u, [])
  | r, u, c :: cs =>
      let offerId := uid u
      let r' := { r with
        offered := alSet offerId ⟨c.socketId, time, .pending⟩ r.offered,
        offeredSockets := sadd c.socketId r.offeredSockets }
      let em := Emit.toSocket c.socketId (.corridaDisponivel offerId rideId
        (if r.passengerName = "" then "Passageiro" else r.passengerName)
        r.pickupAddress r.pickup r.destinationAddress r.dest
        r.routePolyline r.fare expiresAt)
      let (r'', u', ems) := mintOffers rideId time expiresAt r' (u + 1) cs
      (r'', u', em :: ems)

/-- `dispatchRound(rideId)` (server.js lines 76-131) as one synchronous step;
the `setTimeout` continuations become pending timers. -/
def dispatchRound (cfg : Config) (hav : Coord → Coord → ℚ)
    (st : ServerState) (rideId : RideId) : ServerState × List Emit :=
  match alGet rideId st.rides with
  | none => (st, [])
  | some r =>
    if r.status ≠ .searching then (st, []) else
    let candidates := dispatchBatch cfg hav st r
    if candidates.isEmpty then
      if (r.round : ℤ) ≥ (cfg.MAX_ROUNDS : ℤ) - 1 then
        -- lines 86-91: sem_motoristas, status failed, clearTimer
        let r' := { r with status := .failed, timer := none }
        ({ st with rides := alSet rideId r' st.rides,
                   timers := removeTimer r.timer st.timers },
         [.toSocket r.passengerSid (.semMotoristas rideId)])
      else
        -- lines 94-95: round++, 2 s retry timer (no clearTimer here)
        let tid := st.nextTimer
        ({ st with rides := alSet rideId { r with round := r.round + 1, timer := some tid } st.rides,
                   timers := st.timers ++ [⟨tid, rideId, .retry, 2000⟩],
                   nextTimer := tid + 1 }, [])
    else
      -- lines 100-130: mint offers, then clearTimer and arm the batch timer
      let expiresAt := st.time + cfg.OFFER_TTL_MS
      let m := mintOffers rideId st.time expiresAt r st.nextUid candidates
      let tid := st.nextTimer
      ({ st with rides := alSet rideId { m.1 with timer := some tid } st.rides,
                 timers := removeTimer m.1.timer st.timers ++ [⟨tid, rideId, .batch, cfg.OFFER_TTL_MS⟩],
                 nextTimer := tid + 1,
                 nextUid := m.2.1 }, m.2.2)

/- ----------------- inbound-event payloads ----------------- -/

/-- `identificar` payload. -/
structure IdentPayload where
  tipo : String
  driverId : Option String
deriving DecidableEq, Repr

/-- `driver_localizacao` payload; `none` coordinates model missing or
non-finite numbers (`Number(...)` not finite). -/
structure LocPayload where
  rideId : Option String
  lat : Option ℚ
  lng : Option ℚ
  heading : Option ℚ
  speed : Option ℚ
deriving DecidableEq, Repr

/-- `nova_corrida` payload (coordinates assumed present and finite; the
claims under verification do not exercise NaN pickup coordinates). -/
structure NovaPayload where
  rideId : String
  passengerName : Option String
  pickupAddress : Option String
  destinationAddress : Option String
  pickupLocation : Coord
  destinationLocation : Coord
  fare : Option ℚ
  routePolyline : Option String
deriving DecidableEq, Repr

/-- `corrida_aceita` payload. -/
structure AcceptPayload where
  rideId : String
  offerId : String
  driverId : Option String
  driverName : Option String
  driverPhone : Option String
  vehicleModel : Option String
  vehiclePlate : Option String
  approachPolyline : Option String
deriving DecidableEq, Repr

/-- `enviar_mensagem` payload. -/
structure MsgPayload where
  rideId : Option String
  sender : Option String
  message : Option String
deriving DecidableEq, Repr

/-- `corrida_status` payload; `status = ""` models a falsy `data.status`. -/
structure StatusPayload where
  rideId : String
  sender : Option String
  status : String
deriving DecidableEq, Repr

/- ----------------- room helpers ----------------- -/

/-- `socket.join('ride:'+rideId)`. -/
def joinRoom (rideId : RideId) (sid : SocketId) (rooms : List (RideId × List SocketId)) :
    List (RideId × List SocketId) :=
  match alGet rideId rooms with
  | none => alSet rideId [sid] rooms
  | some ms => alSet rideId (sadd sid ms) rooms

/- ----------------- event handlers (io.on('connection') body) ----------------- -/

/-- `identificar` handler (lines 139-161); the `motoristas`/`passageiros`
groups are never emitted to and are not modelled. -/
def hIdentificar (st : ServerState) (sid : SocketId) (p : IdentPayload) :
    ServerState × List Emit :=
  if p.tipo = "motorista" then
    ({ st with
        driversBySocket := alSet sid ⟨p.driverId, false, none⟩ st.driversBySocket },
     [.toSocket sid (.statusOk true (some p.tipo) none)])
  else if p.tipo = "passageiro" then
    (st, [.toSocket sid (.statusOk true (some p.tipo) none)])
  else
    (st, [.toSocket sid (.statusOk false none (some "tipo_invalido"))])

/-- `driver_status` handler (lines 165-170). -/
def hDriverStatus (st : ServerState) (sid : SocketId) (available : Bool) :
    ServerState × List Emit :=
  match alGet sid st.driversBySocket with
  | none => (st, [])
  | some rec =>
      ({ st with driversBySocket := alSet sid { rec with available } st.driversBySocket }, [])

/-- `driver_localizacao` handler (lines 174-196). -/
def hDriverLoc (st : ServerState) (sid : SocketId) (p : LocPayload) :
    ServerState × List Emit :=
  match p.lat, p.lng with
  | some lat, some lng =>
      let st' := match alGet sid st.driversBySocket with
        | none => st
        | some rec =>
            { st with
                driversBySocket :=
                  alSet sid { rec with last := some ⟨lat, lng, st.time⟩ } st.driversBySocket }
      match p.rideId with
      | some rid =>
          if rid = "" then (st', []) else
          (st', [.toRoom rid (.driverLocalizacao rid lat lng p.heading p.speed st.time)])
      | none => (st', [])
  | _, _ => (st, [])

/-- The ride-registration part of `nova_corrida` (lines 206-231): build the
fresh record, `rides.set`, and join the passenger to the ride room. -/
def registerRide (st : ServerState) (sid : SocketId) (p : NovaPayload) : ServerState :=
  let r : Ride := {
    status := .searching
    passengerSid := sid
    passengerName := match p.passengerName with
      | some s => if s = "" then "Passageiro" else s
      | none => "Passageiro"
    pickupAddress := (p.pickupAddress.getD "")
    destinationAddress := (p.destinationAddress.getD "")
    pickup := p.pickupLocation
    dest := p.destinationLocation
    routePolyline := match p.routePolyline with
      | some s => if s = "" then none else some s
      | none => none
    fare := match p.fare with
      | some q => if q = 0 then none else some q
      | none => none
    offered := []
    offeredSockets := []
    winnerSid := none
    round := 0
    timer := none }
  { st with rides := alSet p.rideId r st.rides,
            rooms := joinRoom p.rideId sid st.rooms }

/-- `nova_corrida` handler (lines 200-236): guard the rideId, register the
ride, then fire the first dispatch round. -/
def hNovaCorrida (cfg : Config) (hav : Coord → Coord → ℚ)
    (st : ServerState) (sid : SocketId) (p : NovaPayload) : ServerState × List Emit :=
  if p.rideId = "" then (st, [])
  else dispatchRound cfg hav (registerRide st sid p) p.rideId

/-- `corrida_aceita` handler (lines 240-294). -/
def hCorridaAceita (st : ServerState) (sid : SocketId) (p : AcceptPayload) :
    ServerState × List Emit :=
  if p.rideId = "" ∨ p.offerId = "" then (st, []) else
  match alGet p.rideId st.rides with
  | none => (st, [.toSocket sid (.offerLost p.rideId "not_searching")])
  | some r =>
    if r.status ≠ .searching then
      (st, [.toSocket sid (.offerLost p.rideId "not_searching")])
    else
      match alGet p.offerId r.offered with
      | none => (st, [.toSocket sid (.offerLost p.rideId "offer_invalid")])
      | some off =>
        if off.socketId ≠ sid ∨ off.status ≠ .pending then
          (st, [.toSocket sid (.offerLost p.rideId "offer_invalid")])
        else
          -- award (lines 259-272)
          let offered₁ := alSet p.offerId { off with status := .won } r.offered
          let lostEmits := offered₁.filterMap fun q =>
            if q.1 ≠ p.offerId ∧ q.2.status = .pending then
              some (Emit.toSocket q.2.socketId (.offerLost p.rideId "already_taken"))
            else none
          let offered₂ := offered₁.map fun q =>
            if q.1 ≠ p.offerId ∧ q.2.status = .pending then
              (q.1, { q.2 with status := OfferStatus.lost })
            else q
          let r' := { r with status := .accepted, winnerSid := some sid,
                             offered := offered₂, timer := none }
          let payload := Event.corridaAceitaEv p.rideId p.driverId p.driverName
            p.driverPhone p.vehicleModel p.vehiclePlate "accepted"
            "Motorista a caminho" st.time p.approachPolyline
          ({ st with rides := alSet p.rideId r' st.rides,
                     timers := removeTimer r.timer st.timers,
                     rooms := joinRoom p.rideId sid st.rooms },
           lostEmits ++ [.toRoom p.rideId payload, .toSocket sid (.offerWon p.rideId)])

/-- `enviar_mensagem` handler (lines 297-306). -/
def hEnviarMensagem (st : ServerState) (p : MsgPayload) : ServerState × List Emit :=
  match p.rideId, p.message with
  | some rid, some msg =>
      if rid = "" ∨ msg = "" then (st, [])
      else (st, [.toRoom rid (.novaMensagem p.sender msg st.time)])
  | _, _ => (st, [])

/-- `corrida_status` handler (lines 309-324): broadcast the stamped update;
on `completed`/`canceled` schedule the 3000 ms room-eviction timer and delete
the ride record immediately. -/
def hCorridaStatus (st : ServerState) (p : StatusPayload) : ServerState × List Emit :=
  if p.rideId = "" ∨ p.status = "" then (st, []) else
  let ems := [Emit.toRoom p.rideId
    (.corridaStatusAtualizada p.rideId p.sender p.status st.time)]
  if p.status = "completed" ∨ p.status = "canceled" then
    let tid := st.nextTimer
    ({ st with rides := alDelete p.rideId st.rides,
               timers := st.timers ++ [⟨tid, p.rideId, .linger, 3000⟩],
               nextTimer := tid + 1 }, ems)
  else (st, ems)

/-- `disconnect` handler (lines 326-331); Socket.IO also removes the socket
from every room it had joined. -/
def hDisconnect (st : ServerState) (sid : SocketId) : ServerState × List Emit :=
  let st' := match alGet sid st.driversBySocket with
    | none => st
    | some rec =>
        { st with driversBySocket := alSet sid { rec with available := false } st.driversBySocket }
  ({ st' with rooms := st'.rooms.map fun q => (q.1, q.2.filter (· ≠ sid)) }, [])

/- ----------------- timer callbacks and the event step ----------------- -/

/-- What a pending timer does when it fires.  The handle is first removed
from the pending set (a fired timeout is no longer cancellable), then the
`setTimeout` callback body runs:
* `retry` (line 95): `dispatchRound(rideId)`;
* `batch` (lines 124-130): if the ride still exists and is searching,
  `round++` then `dispatchRound(rideId)`;
* `linger` (line 320): `socketsLeave` empties the ride room. -/
def fireTimer (cfg : Config) (hav : Coord → Coord → ℚ)
    (st : ServerState) (tid : ℕ) : ServerState × List Emit :=
  match st.timers.find? (fun t => t.id = tid) with
  | none => (st, [])
  | some t =>
    let st₀ := { st with timers := st.timers.filter fun t' => t'.id ≠ tid }
    match t.kind with
    | .retry => dispatchRound cfg hav st₀ t.rideId
    | .batch =>
        match alGet t.rideId st₀.rides with
        | none => (st₀, [])
        | some rr =>
            if rr.status ≠ .searching then (st₀, [])
            else
              dispatchRound cfg hav
                { st₀ with rides := alSet t.rideId { rr with round := rr.round + 1 } st₀.rides }
                t.rideId
    | .linger => ({ st₀ with rooms := alDelete t.rideId st₀.rooms }, [])

/-- The inbound events and scheduler occurrences that drive the server. -/
inductive Ev where
  | identificar (sid : SocketId) (p : IdentPayload)
  | driverStatus (sid : SocketId) (available : Bool)
  | driverLocalizacao (sid : SocketId) (p : LocPayload)
  | novaCorrida (sid : SocketId) (p : NovaPayload)
  | corridaAceita (sid : SocketId) (p : AcceptPayload)
  | enviarMensagem (sid : SocketId) (p : MsgPayload)
  | corridaStatus (sid : SocketId) (p : StatusPayload)
  | disconnect (sid : SocketId)
  | fire (tid : ℕ)
  | tick (dt : ℕ)
deriving DecidableEq, Repr

/-- One event-loop step of the server. -/
def step (cfg : Config) (hav : Coord → Coord → ℚ)
    (st : ServerState) : Ev → ServerState × List Emit
  | .identificar sid p => hIdentificar st sid p
  | .driverStatus sid b => hDriverStatus st sid b
  | .driverLocalizacao sid p => hDriverLoc st sid p
  | .novaCorrida sid p => hNovaCorrida cfg hav st sid p
  | .corridaAceita sid p => hCorridaAceita st sid p
  | .enviarMensagem _ p => hEnviarMensagem st p
  | .corridaStatus _ p => hCorridaStatus st p
  | .disconnect sid => hDisconnect st sid
  | .fire tid => fireTimer cfg hav st tid
  | .tick dt => ({ st with time := st.time + dt }, [])

/-- Run a list of events, concatenating emissions. -/
def run (cfg : Config) (hav : Coord → Coord → ℚ) :
    ServerState → List Ev → ServerState × List Emit
  | st, [] => (st, [])
  | st, e :: es =>
      let p := step cfg hav st e
      let q := run cfg hav p.1 es
      (q.1, p.2 ++ q.2)

/-- Process start: empty registries, no rooms, no timers. -/
def initState : ServerState :=
  { driversBySocket := [], rides := [], rooms := [], timers := [],
    nextTimer := 0, nextUid := 0, time := 0 }

/-- States the server can actually be in. -/
inductive Reachable (cfg : Config) (hav : Coord → Coord → ℚ) : ServerState → Prop
  | init : Reachable cfg hav initState
  | step {st : ServerState} (h : Reachable cfg hav st) (e : Ev) :
      Reachable cfg hav (step cfg hav st e).1

/- ----------------- association-list lemmas ----------------- -/

theorem alGet_alSet_self {β : Type} (k : String) (v : β) (l : List (String × β)) :
    alGet k (alSet k v l) = some v := by
  induction l with
  | nil => simp [alGet, alSet]
  | cons x xs ih =>
      obtain ⟨k', v'⟩ := x
      by_cases h : k' = k <;> simp [alGet, alSet, h, ih]

theorem alGet_alSet_ne {β : Type} {k k' : String} (v : β) (l : List (String × β))
    (h : k' ≠ k) : alGet k' (alSet k v l) = alGet k' l := by
  induction l with
  | nil => simp [alGet, alSet, Ne.symm h]
  | cons x xs ih =>
      obtain ⟨k₀, v₀⟩ := x
      by_cases h₀ : k₀ = k
      · subst h₀; simp [alGet, alSet, Ne.symm h]
      · by_cases h₁ : k₀ = k' <;> simp [alGet, alSet, h₀, h₁, h, ih]

theorem alGet_alDelete_ne {β : Type} {k k' : String} (l : List (String × β))
    (h : k' ≠ k) : alGet k' (alDelete k l) = alGet k' l := by
  induction l with
  | nil => simp [alDelete]
  | cons x xs ih =>
      obtain ⟨k₀, v₀⟩ := x
      by_cases h₀ : k₀ = k
      · subst h₀; simp [alGet, alDelete, Ne.symm h]
      · by_cases h₁ : k₀ = k' <;> simp [alGet, alDelete, h₀, h₁, h, ih]

theorem alGet_mem {β : Type} {k : String} {v : β} {l : List (String × β)}
    (h : alGet k l = some v) : (k, v) ∈ l := by
  induction l with
  | nil => simp [alGet] at h
  | cons x xs ih =>
      obtain ⟨k₀, v₀⟩ := x
      by_cases h₀ : k₀ = k
      · subst h₀; simp [alGet] at h; simp [h]
      · simp [alGet, h₀] at h
        exact List.mem_cons_of_mem _ (ih h)

theorem mem_alSet {β : Type} {k : String} {v : β} {l : List (String × β)} {q : String × β}
    (h : q ∈ alSet k v l) : q ∈ l ∨ q = (k, v) := by
  induction l with
  | nil =>
      simp [alSet] at h
      exact Or.inr h
  | cons x xs ih =>
      obtain ⟨k₀, v₀⟩ := x
      by_cases h₀ : k₀ = k
      · subst h₀
        simp [alSet] at h
        rcases h with h | h
        · exact Or.inr (by simp [h])
        · exact Or.inl (List.mem_cons_of_mem _ h)
      · simp [alSet, h₀] at h
        rcases h with h | h
        · exact Or.inl (by simp [h])
        · rcases ih h with h' | h'
          · exact Or.inl (List.mem_cons_of_mem _ h')
          · exact Or.inr h'

theorem mem_alSet_of_ne {β : Type} {k : String} (v : β) {l : List (String × β)}
    {q : String × β} (hq : q ∈ l) (hne : q.1 ≠ k) : q ∈ alSet k v l := by
  induction l with
  | nil => simp at hq
  | cons x xs ih =>
      obtain ⟨k₀, v₀⟩ := x
      by_cases h₀ : k₀ = k
      · subst h₀
        rcases List.mem_cons.mp hq with h | h
        · exact absurd (by simp [h]) hne
        · simp [alSet]
          exact Or.inr h
      · rcases List.mem_cons.mp hq with h | h
        · simp [alSet, h₀]
          exact Or.inl (by simp [h])
        · simp [alSet, h₀]
          exact Or.inr (ih h)

theorem alDelete_sublist {β : Type} (k : String) (l : List (String × β)) :
    (alDelete k l).Sublist l := by
  induction l with
  | nil => simp [alDelete]
  | cons x xs ih =>
      obtain ⟨k₀, v₀⟩ := x
      by_cases h₀ : k₀ = k
      · rw [show alDelete k ((k₀, v₀) :: xs) = xs by simp [alDelete, h₀]]
        exact List.sublist_cons_self (k₀, v₀) xs
      · rw [show alDelete k ((k₀, v₀) :: xs) = (k₀, v₀) :: alDelete k xs by
          simp [alDelete, h₀]]
        exact ih.cons₂ (k₀, v₀)

theorem mem_keys_alSet {β : Type} {a k : String} (v : β) (l : List (String × β)) :
    a ∈ (alSet k v l).map Prod.fst ↔ a ∈ l.map Prod.fst ∨ a = k := by
  induction l with
  | nil => simp [alSet]
  | cons x xs ih =>
      obtain ⟨k₀, v₀⟩ := x
      by_cases h₀ : k₀ = k
      · subst h₀
        simp [alSet]
        tauto
      · simp [alSet, h₀, ih]
        tauto

theorem keys_nodup_alSet {β : Type} {k : String} (v : β) {l : List (String × β)}
    (h : (l.map Prod.fst).Nodup) : ((alSet k v l).map Prod.fst).Nodup := by
  induction l with
  | nil => simp [alSet]
  | cons x xs ih =>
      obtain ⟨k₀, v₀⟩ := x
      simp at h
      by_cases h₀ : k₀ = k
      · subst h₀
        simp [alSet]
        exact h
      · have h₁ : (alSet k v ((k₀, v₀) :: xs)).map Prod.fst
            = k₀ :: (alSet k v xs).map Prod.fst := by simp [alSet, h₀]
        rw [h₁, List.nodup_cons]
        refine ⟨fun hc => ?_, ih h.2⟩
        rcases (mem_keys_alSet v xs).mp hc with hc | hc
        · obtain ⟨b, hb, hb'⟩ := List.mem_map.mp hc
          exact h.1 b.2 (by simpa [← hb'] using hb)
        · exact h₀ hc

theorem alGet_eq_none {β : Type} {k : String} {l : List (String × β)} :
    alGet k l = none ↔ k ∉ l.map Prod.fst := by
  induction l with
  | nil => simp [alGet]
  | cons x xs ih =>
      obtain ⟨k₀, v₀⟩ := x
      by_cases h₀ : k₀ = k
      · subst h₀; simp [alGet]
      · simp [alGet, h₀, ih]
        tauto

theorem alGet_alDelete_self {β : Type} {k : String} {l : List (String × β)}
    (h : (l.map Prod.fst).Nodup) : alGet k (alDelete k l) = none := by
  induction l with
  | nil => simp [alDelete, alGet]
  | cons x xs ih =>
      obtain ⟨k₀, v₀⟩ := x
      simp at h
      by_cases h₀ : k₀ = k
      · subst h₀
        rw [show alDelete k₀ ((k₀, v₀) :: xs) = xs by simp [alDelete]]
        rw [alGet_eq_none]
        intro hc
        obtain ⟨b, hb, hb'⟩ := List.mem_map.mp hc
        exact h.1 b.2 (by simpa [← hb'] using hb)
      · rw [show alDelete k ((k₀, v₀) :: xs) = (k₀, v₀) :: alDelete k xs by
          simp [alDelete, h₀]]
        simp [alGet, h₀, ih h.2]

theorem mem_sadd {x y : SocketId} {s : List SocketId} :
    x ∈ sadd y s ↔ x ∈ s ∨ x = y := by
  unfold sadd
  by_cases h : y ∈ s
  · simp [h]
    rintro rfl
    exact h
  · simp [h]

theorem subset_sadd (y : SocketId) (s : List SocketId) : s ⊆ sadd y s := by
  intro x hx; exact mem_sadd.mpr (Or.inl hx)

/- ----------------- selector membership characterization ----------------- -/

/-- A candidate is in the shortlist iff it is a registry entry that passes the
availability/freshness filters, paired with its distance to pickup. -/
theorem mem_listCandidateDrivers {cfg : Config} {hav : Coord → Coord → ℚ}
    {st : ServerState} {pickup : Coord} {c : Candidate} :
    c ∈ listCandidateDrivers cfg hav st pickup ↔
      (c.socketId, c.info) ∈ st.driversBySocket ∧
        freshEligible cfg st.time c.info = true ∧
        c.d = distKm hav (c.info.last.map fun l => ⟨l.lat, l.lng⟩) (some pickup) := by
  obtain ⟨s, i, d⟩ := c
  unfold listCandidateDrivers
  rw [(List.perm_insertionSort candLe _).mem_iff, List.mem_filterMap]
  constructor
  · rintro ⟨p, hp, hcp⟩
    by_cases hel : freshEligible cfg st.time p.2
    · simp only [hel, if_true, Option.some.injEq] at hcp
      cases hcp
      exact ⟨hp, hel, rfl⟩
    · simp [hel] at hcp
  · rintro ⟨hmem, hel, hd⟩
    have hd' : d = distKm hav (i.last.map fun l => ⟨l.lat, l.lng⟩) (some pickup) := hd
    subst hd'
    exact ⟨(s, i), hmem, by simp [hel]⟩

/- ----------------- shared concrete fixtures ----------------- -/

/-- A concrete stand-in for the floating-point Haversine body. -/
def hav0 : Coord → Coord → ℚ := fun _ _ => 0

/-- Default configuration (server.js lines 36-40 defaults). -/
def cfg0 : Config := ⟨3, 12000, 3, 30000, false⟩

/-- Default configuration with the spec's quick-test flag switched on. -/
def cfgQT : Config := ⟨3, 12000, 3, 30000, true⟩

/-- An available driver that has never reported a location. -/
def drvAvailNoLoc : DriverInfo := ⟨some "D1", true, none⟩

/-- A connected driver that is not available. -/
def drvUnavailable : DriverInfo := ⟨some "D1", false, none⟩

def stC3 : ServerState := ⟨[("d1", drvAvailNoLoc)], [], [], [], 0, 0, 0⟩

def stC4 : ServerState := ⟨[("d1", drvUnavailable)], [], [], [], 0, 0, 0⟩

/- ----------------- C3 ----------------- -/

/-- C3 counterexample: `listCandidateDrivers` has no fallback pass.  With a
single available driver that has no fresh location the primary pass is empty,
and the selector returns the empty list instead of that driver paired with
the 9999 sentinel. -/
theorem claim3_counterexample :
    ("d1", drvAvailNoLoc) ∈ stC3.driversBySocket ∧
      drvAvailNoLoc.available = true ∧ drvAvailNoLoc.last = none ∧
      listCandidateDrivers cfg0 hav0 stC3 ⟨0, 0⟩ = [] := by
  refine ⟨by decide, rfl, rfl, rfl⟩

/-- C3 (amended): when the primary pass (available drivers with a fresh
location) is empty, the candidate selector returns the empty shortlist;
available drivers without a fresh location are never offered as a fallback. -/
theorem claim3_no_fallback (cfg : Config) (hav : Coord → Coord → ℚ)
    (st : ServerState) (pickup : Coord)
    (hempty : ∀ p ∈ st.driversBySocket, freshEligible cfg st.time (Prod.snd p) = false) :
    listCandidateDrivers cfg hav st pickup = [] := by
  unfold listCandidateDrivers
  have h : st.driversBySocket.filterMap (fun p =>
      if freshEligible cfg st.time p.2 then
        some (⟨p.1, p.2, distKm hav (p.2.last.map fun l => ⟨l.lat, l.lng⟩) (some pickup)⟩ : Candidate)
      else none) = [] := by
    rw [List.filterMap_eq_nil_iff]
    intro p hp
    simp [hempty p hp]
  rw [h]
  rfl

/-- Witness for `claim3_no_fallback` at the concrete counterexample state. -/
theorem claim3_no_fallback_witness :
    listCandidateDrivers cfg0 hav0 stC3 ⟨0, 0⟩ = [] :=
  claim3_no_fallback cfg0 hav0 stC3 ⟨0, 0⟩ (by decide)

/- ----------------- C4 ----------------- -/

/-- C4 counterexample: with `QUICK_TEST_MODE` set and a known (but
unavailable) driver not in any offered set, the selector does not return that
driver with distance 0 — it returns the empty list, because server.js never
reads a `QUICK_TEST_MODE` flag. -/
theorem claim4_counterexample :
    cfgQT.QUICK_TEST_MODE = true ∧
      ("d1", drvUnavailable) ∈ stC4.driversBySocket ∧
      listCandidateDrivers cfgQT hav0 stC4 ⟨0, 0⟩ = [] := by
  refine ⟨rfl, by decide, rfl⟩

/-- C4 (amended): server.js reads no `QUICK_TEST_MODE` configuration; the
candidate selector is unaffected by the flag and always requires availability
and a fresh location. -/
theorem claim4_no_quick_test (cfg : Config) (hav : Coord → Coord → ℚ)
    (st : ServerState) (pickup : Coord) (b : Bool) :
    listCandidateDrivers { cfg with QUICK_TEST_MODE := b } hav st pickup
        = listCandidateDrivers cfg hav st pickup
      ∧ ∀ c ∈ listCandidateDrivers cfg hav st pickup,
          c.info.available = true ∧
            ∃ l, c.info.last = some l ∧ st.time - l.atMs ≤ cfg.DRIVER_STALE_MS := by
  constructor
  · rfl
  · intro c hc
    obtain ⟨-, hel, -⟩ := mem_listCandidateDrivers.mp hc
    unfold freshEligible at hel
    rcases hl : c.info.last with - | l
    · rw [hl] at hel
      simp at hel
    · rw [hl] at hel
      simp at hel
      exact ⟨hel.1, l, rfl, by omega⟩

/- ----------------- C5 ----------------- -/

/-- An accepted ride used to exercise the terminal-status path. -/
def rideC5 : Ride :=
  { status := .accepted, passengerSid := "p1", passengerName := "Ana",
    pickupAddress := "", destinationAddress := "", pickup := ⟨0, 0⟩, dest := ⟨1, 1⟩,
    routePolyline := none, fare := none,
    offered := [("u0", ⟨"d1", 0, .won⟩)], offeredSockets := ["d1"],
    winnerSid := some "d1", round := 0, timer := none }

def stC5 : ServerState := ⟨[], [("r4", rideC5)], [("r4", ["p1", "d1"])], [], 0, 0, 0⟩

def payC5 : StatusPayload := ⟨"r4", some "passenger", "completed"⟩

/-- C5 counterexample: after `corrida_status{status:"completed"}` on an
existing ride the record is gone from the registry immediately — in the very
state the handler returns, before the ≈3 s linger timer (still pending) has
evicted the still-populated room — contradicting the claim that the record
remains present for the linger and is deleted only afterwards. -/
theorem claim5_counterexample :
    alGet "r4" stC5.rides = some rideC5 ∧
      alGet "r4" (hCorridaStatus stC5 payC5).1.rides = none ∧
      alGet "r4" (hCorridaStatus stC5 payC5).1.rooms = some ["p1", "d1"] ∧
      (hCorridaStatus stC5 payC5).1.timers = [⟨0, "r4", .linger, 3000⟩] := by
  refine ⟨rfl, rfl, rfl, rfl⟩

/-- C5 (amended): on `completed`/`canceled` the handler broadcasts
`corrida_status_atualizada` to the room, schedules a 3000 ms eviction timer
(the room keeps its members until that timer fires, so final events still fan
out), and deletes the ride record immediately — not after the linger; when
the linger timer fires it only evicts the room. -/
theorem claim5_immediate_delete (cfg : Config) (hav : Coord → Coord → ℚ)
    (st : ServerState) (p : StatusPayload) (hr : p.rideId ≠ "")
    (hterm : p.status = "completed" ∨ p.status = "canceled") :
    (hCorridaStatus st p).2
        = [.toRoom p.rideId (.corridaStatusAtualizada p.rideId p.sender p.status st.time)]
      ∧ (hCorridaStatus st p).1.rides = alDelete p.rideId st.rides
      ∧ (hCorridaStatus st p).1.rooms = st.rooms
      ∧ (hCorridaStatus st p).1.timers = st.timers ++ [⟨st.nextTimer, p.rideId, .linger, 3000⟩]
      ∧ ∀ (st₂ : ServerState) (tid : ℕ) (rid : RideId) (delay : ℤ),
          st₂.timers.find? (fun t => t.id = tid) = some ⟨tid, rid, .linger, delay⟩ →
            (fireTimer cfg hav st₂ tid).1.rooms = alDelete rid st₂.rooms
              ∧ (fireTimer cfg hav st₂ tid).1.rides = st₂.rides
              ∧ (fireTimer cfg hav st₂ tid).2 = [] := by
  have hs : p.status ≠ "" := by
    rcases hterm with h | h <;> simp [h]
  have hguard : ¬(p.rideId = "" ∨ p.status = "") := by
    rintro (h | h)
    · exact hr h
    · exact hs h
  constructor
  · unfold hCorridaStatus
    rcases hterm with h | h <;> simp [hguard, hr, h]
  refine ⟨?_, ?_, ?_, ?_⟩
  · unfold hCorridaStatus
    rcases hterm with h | h <;> simp [hguard, hr, h]
  · unfold hCorridaStatus
    rcases hterm with h | h <;> simp [hguard, hr, h]
  · unfold hCorridaStatus
    rcases hterm with h | h <;> simp [hguard, hr, h]
  · intro st₂ tid rid delay hfind
    unfold fireTimer
    rw [hfind]
    exact ⟨rfl, rfl, rfl⟩

/-- Witness for `claim5_immediate_delete` at the concrete ride `r4`. -/
theorem claim5_immediate_delete_witness :
    (hCorridaStatus stC5 payC5).1.rides = alDelete "r4" stC5.rides
      ∧ (hCorridaStatus stC5 payC5).1.rooms = stC5.rooms := by
  have h := claim5_immediate_delete cfg0 hav0 stC5 payC5 (by decide) (Or.inl rfl)
  exact ⟨h.2.1, h.2.2.1⟩

/- ----------------- C7 ----------------- -/

/-- C7: `corrida_aceita` is rejected with exactly
`offer_lost{reason: not_searching}` when the ride is absent or not SEARCHING,
and with exactly `offer_lost{reason: offer_invalid}` when the offer is
absent, targets a different connection, or is not PENDING — in particular a
driver presenting another driver's offerId gets `offer_invalid` and the state
is unchanged, so it cannot win the ride. -/
theorem claim7_reject_paths (st : ServerState) (sid : SocketId) (p : AcceptPayload)
    (hr : p.rideId ≠ "") (ho : p.offerId ≠ "") :
    ((alGet p.rideId st.rides = none
        ∨ ∃ r, alGet p.rideId st.rides = some r ∧ r.status ≠ .searching) →
      hCorridaAceita st sid p = (st, [.toSocket sid (.offerLost p.rideId "not_searching")]))
    ∧ (∀ r, alGet p.rideId st.rides = some r → r.status = .searching →
        (alGet p.offerId r.offered = none
          ∨ ∃ off, alGet p.offerId r.offered = some off
              ∧ (off.socketId ≠ sid ∨ off.status ≠ .pending)) →
        hCorridaAceita st sid p = (st, [.toSocket sid (.offerLost p.rideId "offer_invalid")])) := by
  constructor
  · rintro (hnone | ⟨r, hsome, hs⟩)
    · unfold hCorridaAceita
      simp [hr, ho, hnone]
    · unfold hCorridaAceita
      simp [hr, ho, hsome, hs]
  · rintro r hsome hs (hoffn | ⟨off, hoff, hbad⟩)
    · unfold hCorridaAceita
      simp [hr, ho, hsome, hs, hoffn]
    · unfold hCorridaAceita
      rcases hbad with hb | hb <;> simp [hr, ho, hsome, hs, hoff, hb]

/-- A searching ride with one pending offer targeted at driver `d1`. -/
def rideC7 : Ride :=
  { status := .searching, passengerSid := "p1", passengerName := "Ana",
    pickupAddress := "", destinationAddress := "", pickup := ⟨0, 0⟩, dest := ⟨1, 1⟩,
    routePolyline := none, fare := none,
    offered := [("u0", ⟨"d1", 0, .pending⟩)], offeredSockets := ["d1"],
    winnerSid := none, round := 0, timer := some 0 }

def stC7 : ServerState :=
  ⟨[], [("r1", rideC7)], [("r1", ["p1"])], [⟨0, "r1", .batch, 12000⟩], 1, 1, 0⟩

/-- Witness: driver `d2` presenting `d1`'s offerId is rejected with
`offer_invalid` and the state does not change. -/
theorem claim7_reject_paths_witness :
    hCorridaAceita stC7 "d2" ⟨"r1", "u0", some "D2", none, none, none, none, none⟩
      = (stC7, [.toSocket "d2" (.offerLost "r1" "offer_invalid")]) := by
  have h := claim7_reject_paths stC7 "d2"
    ⟨"r1", "u0", some "D2", none, none, none, none, none⟩ (by decide) (by decide)
  exact h.2 rideC7 rfl rfl (Or.inr ⟨⟨"d1", 0, .pending⟩, rfl, Or.inl (by decide)⟩)

/- ----------------- C10 ----------------- -/

/-- C10: `corrida_status` acts for every sender — the result is independent
of which connection sent it and of the room membership — and for every ride
id with a truthy status: the stamped `corrida_status_atualizada` broadcast is
always emitted to the ride's room, and on `completed`/`canceled` the record
(searching or not, existing or not) is deleted from the registry. -/
theorem claim10_status_unguarded (cfg : Config) (hav : Coord → Coord → ℚ)
    (st : ServerState) (sid sid' : SocketId) (p : StatusPayload)
    (hr : p.rideId ≠ "") (hs : p.status ≠ "") :
    step cfg hav st (.corridaStatus sid p) = step cfg hav st (.corridaStatus sid' p)
      ∧ (∀ rooms', hCorridaStatus { st with rooms := rooms' } p
          = ({ (hCorridaStatus st p).1 with rooms := rooms' }, (hCorridaStatus st p).2))
      ∧ (hCorridaStatus st p).2
          = [.toRoom p.rideId (.corridaStatusAtualizada p.rideId p.sender p.status st.time)]
      ∧ (p.status = "completed" ∨ p.status = "canceled" →
          (hCorridaStatus st p).1.rides = alDelete p.rideId st.rides
            ∧ ((st.rides.map Prod.fst).Nodup →
                alGet p.rideId (hCorridaStatus st p).1.rides = none)) := by
  refine ⟨rfl, ?_, ?_, ?_⟩
  · intro rooms'
    unfold hCorridaStatus
    split_ifs <;> rfl
  · unfold hCorridaStatus
    split_ifs with h₁ h₂ <;> first | rfl | exact absurd h₁ (by simp [hr, hs])
  · intro hterm
    have hdel : (hCorridaStatus st p).1.rides = alDelete p.rideId st.rides := by
      unfold hCorridaStatus
      have hg : ¬(p.rideId = "" ∨ p.status = "") := by simp [hr, hs]
      have ht : p.status = "completed" ∨ p.status = "canceled" := hterm
      rcases ht with h | h <;> simp [hg, hr, h]
    exact ⟨hdel, fun hnd => by rw [hdel]; exact alGet_alDelete_self hnd⟩

/-- Witness: a connection that is in no room terminates a ride that is still
SEARCHING; the record is removed from the registry. -/
theorem claim10_status_unguarded_witness :
    (hCorridaStatus stC7 ⟨"r1", some "intruder", "canceled"⟩).1.rides
        = alDelete "r1" stC7.rides
      ∧ alGet "r1" (hCorridaStatus stC7 ⟨"r1", some "intruder", "canceled"⟩).1.rides
        = none := by
  have h := claim10_status_unguarded cfg0 hav0 stC7 "x1" "x2"
    ⟨"r1", some "intruder", "canceled"⟩ (by decide) (by decide)
  have h₂ := h.2.2.2 (Or.inr rfl)
  exact ⟨h₂.1, h₂.2 (by decide)⟩

/- ----------------- C6 ----------------- -/

/-- C6: a dispatch step on a SEARCHING ride with an empty shortlist of new
candidates emits `sem_motoristas` to the passenger, marks the ride FAILED and
cancels any pending auction timer when the round counter has reached
`MAX_ROUNDS - 1`; below that it increments the round and arms a 2000 ms retry
timer instead. -/
theorem claim6_exhaustion (cfg : Config) (hav : Coord → Coord → ℚ)
    (st : ServerState) (rideId : RideId) (r : Ride)
    (hget : alGet rideId st.rides = some r) (hs : r.status = .searching)
    (hempty : dispatchBatch cfg hav st r = []) :
    ((r.round : ℤ) ≥ (cfg.MAX_ROUNDS : ℤ) - 1 →
      dispatchRound cfg hav st rideId
        = ({ st with rides := alSet rideId { r with status := .failed, timer := none } st.rides,
                     timers := removeTimer r.timer st.timers },
           [.toSocket r.passengerSid (.semMotoristas rideId)]))
    ∧ ((r.round : ℤ) < (cfg.MAX_ROUNDS : ℤ) - 1 →
      dispatchRound cfg hav st rideId
        = ({ st with rides := alSet rideId { r with round := r.round + 1, timer := some st.nextTimer } st.rides,
                     timers := st.timers ++ [⟨st.nextTimer, rideId, .retry, 2000⟩],
                     nextTimer := st.nextTimer + 1 },
           [])) := by
  constructor
  · intro hge
    unfold dispatchRound
    simp [hget, hs, hempty, hge]
  · intro hlt
    unfold dispatchRound
    simp [hget, hs, hempty, not_le.mpr hlt]

/-- A searching ride on its last round with every driver already solicited. -/
def rideC6 : Ride :=
  { status := .searching, passengerSid := "p1", passengerName := "Ana",
    pickupAddress := "", destinationAddress := "", pickup := ⟨0, 0⟩, dest := ⟨1, 1⟩,
    routePolyline := none, fare := none, offered := [], offeredSockets := [],
    winnerSid := none, round := 2, timer := some 7 }

def stC6 : ServerState :=
  ⟨[], [("r6", rideC6)], [("r6", ["p1"])], [⟨7, "r6", .retry, 2000⟩], 8, 0, 0⟩

/-- Witness: with no drivers connected and `round = MAX_ROUNDS - 1`, the
dispatch step fails the ride, cancels its pending timer and notifies the
passenger. -/
theorem claim6_exhaustion_witness :
    dispatchRound cfg0 hav0 stC6 "r6"
      = ({ stC6 with
            rides := alSet "r6" { rideC6 with status := .failed, timer := none } stC6.rides,
            timers := removeTimer rideC6.timer stC6.timers },
         [.toSocket "p1" (.semMotoristas "r6")]) := by
  have h := claim6_exhaustion cfg0 hav0 stC6 "r6" rideC6 rfl rfl rfl
  exact h.1 (by decide)

/- ----------------- corrida_disponivel targets ----------------- -/

/-- The connections an emission list sends `corrida_disponivel` for ride
`rid` to, in order. -/
def dispoTargets (rid : RideId) (ms : List Emit) : List SocketId :=
  ms.filterMap fun m => match m with
    | .toSocket s (.corridaDisponivel _ rid' _ _ _ _ _ _ _ _) =>
        if rid' = rid then some s else none
    | _ => none

@[simp] theorem dispoTargets_nil (rid : RideId) : dispoTargets rid [] = [] := rfl

@[simp] theorem dispoTargets_append (rid : RideId) (ms₁ ms₂ : List Emit) :
    dispoTargets rid (ms₁ ++ ms₂) = dispoTargets rid ms₁ ++ dispoTargets rid ms₂ :=
  List.filterMap_append ..

/- ----------------- mintOffers lemmas ----------------- -/

theorem mintOffers_fields (rideId : RideId) (time expiresAt : ℤ) (r : Ride) (u : ℕ)
    (cs : List Candidate) :
    (mintOffers rideId time expiresAt r u cs).1.status = r.status
      ∧ (mintOffers rideId time expiresAt r u cs).1.passengerSid = r.passengerSid
      ∧ (mintOffers rideId time expiresAt r u cs).1.timer = r.timer
      ∧ (mintOffers rideId time expiresAt r u cs).1.round = r.round := by
  induction cs generalizing r u with
  | nil => exact ⟨rfl, rfl, rfl, rfl⟩
  | cons c cs ih => simpa [mintOffers] using ih _ (u + 1)

theorem mintOffers_offeredSockets_mem (rideId : RideId) (time expiresAt : ℤ)
    (r : Ride) (u : ℕ) (cs : List Candidate) (x : SocketId) :
    x ∈ (mintOffers rideId time expiresAt r u cs).1.offeredSockets
      ↔ x ∈ r.offeredSockets ∨ x ∈ cs.map Candidate.socketId := by
  induction cs generalizing r u with
  | nil => simp [mintOffers]
  | cons c cs ih =>
      simp only [mintOffers, List.map_cons, List.mem_cons]
      rw [ih]
      simp [mem_sadd]
      tauto

theorem mintOffers_pending (rideId : RideId) (time expiresAt : ℤ)
    (r : Ride) (u : ℕ) (cs : List Candidate)
    (h : ∀ q ∈ r.offered, (Prod.snd q).status = .pending) :
    ∀ q ∈ (mintOffers rideId time expiresAt r u cs).1.offered,
      (Prod.snd q).status = .pending := by
  induction cs generalizing r u with
  | nil => exact h
  | cons c cs ih =>
      refine ih _ (u + 1) ?_
      intro q hq
      rcases mem_alSet hq with hq' | hq'
      · exact h q hq'
      · simp [hq']

theorem mintOffers_keys_nodup (rideId : RideId) (time expiresAt : ℤ)
    (r : Ride) (u : ℕ) (cs : List Candidate)
    (h : (r.offered.map Prod.fst).Nodup) :
    ((mintOffers rideId time expiresAt r u cs).1.offered.map Prod.fst).Nodup := by
  induction cs generalizing r u with
  | nil => exact h
  | cons c cs ih => exact ih _ (u + 1) (keys_nodup_alSet _ h)

theorem mintOffers_targets (rideId rid : RideId) (time expiresAt : ℤ)
    (r : Ride) (u : ℕ) (cs : List Candidate) :
    dispoTargets rid (mintOffers rideId time expiresAt r u cs).2.2
      = if rideId = rid then cs.map Candidate.socketId else [] := by
  induction cs generalizing r u with
  | nil => simp [mintOffers]
  | cons c cs ih =>
      simp only [mintOffers, List.map_cons]
      rw [show dispoTargets rid
          ((Emit.toSocket c.socketId (.corridaDisponivel (uid u) rideId
            (if r.passengerName = "" then "Passageiro" else r.passengerName)
            r.pickupAddress r.pickup r.destinationAddress r.dest
            r.routePolyline r.fare expiresAt)) :: (mintOffers rideId time expiresAt
              { r with offered := alSet (uid u) ⟨c.socketId, time, .pending⟩ r.offered,
                       offeredSockets := sadd c.socketId r.offeredSockets } (u + 1) cs).2.2)
          = (if rideId = rid then [c.socketId] else [])
            ++ dispoTargets rid (mintOffers rideId time expiresAt
              { r with offered := alSet (uid u) ⟨c.socketId, time, .pending⟩ r.offered,
                       offeredSockets := sadd c.socketId r.offeredSockets } (u + 1) cs).2.2 by
        unfold dispoTargets
        by_cases hr : rideId = rid <;> simp [hr]]
      rw [ih]
      by_cases hr : rideId = rid <;> simp [hr]

/- ----------------- C2 ----------------- -/

/-- The emissions of one dispatch step send `corrida_disponivel` exactly to
the batch, in batch order. -/
theorem dispatchRound_targets (cfg : Config) (hav : Coord → Coord → ℚ)
    (st : ServerState) (rideId : RideId) (r : Ride)
    (hget : alGet rideId st.rides = some r) (hs : r.status = .searching) :
    dispoTargets rideId (dispatchRound cfg hav st rideId).2
      = (dispatchBatch cfg hav st r).map Candidate.socketId := by
  unfold dispatchRound
  by_cases hemp : dispatchBatch cfg hav st r = []
  · by_cases hge : (r.round : ℤ) ≥ (cfg.MAX_ROUNDS : ℤ) - 1 <;>
      simp [hget, hs, hemp, hge, dispoTargets]
  · have hne : (dispatchBatch cfg hav st r).isEmpty = false := by
      simp [List.isEmpty_iff, hemp]
    simp [hget, hs, hne, mintOffers_targets]

/-- C2: the batch of any dispatch step on a SEARCHING ride is sorted
ascending by distance to pickup, has at most `BATCH_SIZE` entries, contains
only available drivers with a fresh (≤ `DRIVER_STALE_MS` old) location that
are not in the ride's offered set — so no stale driver appears — is distance-
minimal among the not-yet-solicited shortlist, absorbs every eligible
not-yet-solicited driver while not full, and is exactly the set of
connections the step sends `corrida_disponivel` to. -/
theorem claim2_batch (cfg : Config) (hav : Coord → Coord → ℚ)
    (st : ServerState) (rideId : RideId) (r : Ride)
    (hget : alGet rideId st.rides = some r) (hs : r.status = .searching) :
    List.Sorted candLe (dispatchBatch cfg hav st r)
      ∧ (dispatchBatch cfg hav st r).length ≤ cfg.BATCH_SIZE
      ∧ (∀ c ∈ dispatchBatch cfg hav st r,
          (c.socketId, c.info) ∈ st.driversBySocket
            ∧ c.info.available = true
            ∧ (∃ l, c.info.last = some l ∧ st.time - l.atMs ≤ cfg.DRIVER_STALE_MS)
            ∧ c.socketId ∉ r.offeredSockets
            ∧ c.d = distKm hav (c.info.last.map fun l => ⟨l.lat, l.lng⟩) (some r.pickup))
      ∧ (∀ c ∈ listCandidateDrivers cfg hav st r.pickup,
          c.socketId ∉ r.offeredSockets → c ∉ dispatchBatch cfg hav st r →
            ∀ b ∈ dispatchBatch cfg hav st r, b.d ≤ c.d)
      ∧ (∀ p ∈ st.driversBySocket, freshEligible cfg st.time (Prod.snd p) = true →
          Prod.fst p ∉ r.offeredSockets →
          (dispatchBatch cfg hav st r).length < cfg.BATCH_SIZE →
          (⟨p.1, p.2, distKm hav (p.2.last.map fun l => ⟨l.lat, l.lng⟩) (some r.pickup)⟩ : Candidate)
            ∈ dispatchBatch cfg hav st r)
      ∧ dispoTargets rideId (dispatchRound cfg hav st rideId).2
          = (dispatchBatch cfg hav st r).map Candidate.socketId := by
  have hsortedAll : List.Sorted candLe (listCandidateDrivers cfg hav st r.pickup) :=
    List.sorted_insertionSort candLe _
  have hsortedFil : List.Sorted candLe
      ((listCandidateDrivers cfg hav st r.pickup).filter
        fun c => !(r.offeredSockets.contains c.socketId)) :=
    List.Pairwise.filter _ hsortedAll
  refine ⟨?_, ?_, ?_, ?_, ?_, dispatchRound_targets cfg hav st rideId r hget hs⟩
  · exact List.Pairwise.sublist (List.take_sublist _ _) hsortedFil
  · rw [dispatchBatch, List.length_take]
    exact min_le_left _ _
  · intro c hc
    have hcf : c ∈ (listCandidateDrivers cfg hav st r.pickup).filter
        fun c => !(r.offeredSockets.contains c.socketId) :=
      (List.take_sublist _ _).mem hc
    obtain ⟨hcl, hcnot⟩ := List.mem_filter.mp hcf
    obtain ⟨hmem, hel, hd⟩ := mem_listCandidateDrivers.mp hcl
    have hnin : c.socketId ∉ r.offeredSockets := by simpa using hcnot
    unfold freshEligible at hel
    rcases hl : c.info.last with - | l
    · rw [hl] at hel; simp at hel
    · rw [hl] at hel
      simp at hel
      exact ⟨hmem, hel.1, ⟨l, rfl, by omega⟩, hnin, by rw [hl] at hd; exact hd⟩
  · intro c hcl hcnot hcb b hb
    set fil := (listCandidateDrivers cfg hav st r.pickup).filter
      (fun c => !(r.offeredSockets.contains c.socketId)) with hfil
    have hcf : c ∈ fil := List.mem_filter.mpr ⟨hcl, by simpa using hcnot⟩
    have hsplit : List.take cfg.BATCH_SIZE fil ++ List.drop cfg.BATCH_SIZE fil = fil :=
      List.take_append_drop _ _
    have hpw : List.Pairwise candLe
        (List.take cfg.BATCH_SIZE fil ++ List.drop cfg.BATCH_SIZE fil) := by
      rw [hsplit]; exact hsortedFil
    have hcdrop : c ∈ List.drop cfg.BATCH_SIZE fil := by
      have hc' : c ∈ List.take cfg.BATCH_SIZE fil ++ List.drop cfg.BATCH_SIZE fil := by
        rw [hsplit]; exact hcf
      rcases List.mem_append.mp hc' with h | h
      · exact absurd h hcb
      · exact h
    exact (List.pairwise_append.mp hpw).2.2 b hb c hcdrop
  · intro p hp hel hnot hlt
    set fil := (listCandidateDrivers cfg hav st r.pickup).filter
      (fun c => !(r.offeredSockets.contains c.socketId)) with hfil
    have hfull : dispatchBatch cfg hav st r = fil := by
      rw [dispatchBatch, ← hfil]
      rw [dispatchBatch, List.length_take, ← hfil] at hlt
      exact List.take_of_length_le (by omega)
    rw [hfull]
    refine List.mem_filter.mpr ⟨?_, ?_⟩
    · exact mem_listCandidateDrivers.mpr ⟨hp, hel, rfl⟩
    · simpa using hnot

/-- A second concrete stand-in for the Haversine body that discriminates by
the driver's latitude. -/
def hav2 : Coord → Coord → ℚ := fun a _ => a.lat

def drvNear : DriverInfo := ⟨some "D1", true, some ⟨1, 1, 0⟩⟩

def drvFar : DriverInfo := ⟨some "D2", true, some ⟨5, 5, 0⟩⟩

def rideC2 : Ride :=
  { status := .searching, passengerSid := "p1", passengerName := "Ana",
    pickupAddress := "", destinationAddress := "", pickup := ⟨0, 0⟩, dest := ⟨9, 9⟩,
    routePolyline := none, fare := none, offered := [], offeredSockets := [],
    winnerSid := none, round := 0, timer := none }

def stC2 : ServerState :=
  ⟨[("d2", drvFar), ("d1", drvNear)], [("r2", rideC2)], [("r2", ["p1"])], [], 0, 0, 0⟩

/-- Witness for `claim2_batch`: with the far driver registered first, the
batch comes back distance-sorted with the near driver first, and the dispatch
step solicits exactly those two connections in that order. -/
theorem claim2_batch_witness :
    dispatchBatch cfg0 hav2 stC2 rideC2
        = [⟨"d1", drvNear, 1⟩, ⟨"d2", drvFar, 5⟩]
      ∧ List.Sorted candLe (dispatchBatch cfg0 hav2 stC2 rideC2)
      ∧ dispoTargets "r2" (dispatchRound cfg0 hav2 stC2 "r2").2
          = (dispatchBatch cfg0 hav2 stC2 rideC2).map Candidate.socketId := by
  have h := claim2_batch cfg0 hav2 stC2 "r2" rideC2 rfl rfl
  exact ⟨by decide, h.1, h.2.2.2.2.2⟩

/- ----------------- C1 supporting lemmas ----------------- -/

/-- The loser-marking pass never touches entries keyed by the winning
offerId, so the winner's entry survives it unchanged. -/
theorem alGet_markLost (oid : OfferId) (l : List (OfferId × Offer)) :
    alGet oid (l.map fun q =>
        if q.1 ≠ oid ∧ (Prod.snd q).status = .pending then
          (q.1, { q.2 with status := OfferStatus.lost })
        else q)
      = alGet oid l := by
  induction l with
  | nil => rfl
  | cons q qs ih =>
      obtain ⟨k₀, v₀⟩ := q
      rw [List.map_cons]
      by_cases h₀ : k₀ = oid
      · subst h₀
        rw [if_neg (by simp)]
        simp [alGet, ih]
      · by_cases hp : v₀.status = OfferStatus.pending
        · rw [if_pos ⟨h₀, hp⟩]
          simp [alGet, h₀, ih]
        · rw [if_neg (by simp [hp])]
          simp [alGet, h₀, ih]

/-- The loser-marking pass preserves the number of WON offers. -/
theorem filter_won_markLost (oid : OfferId) (l : List (OfferId × Offer)) :
    ((l.map fun q =>
        if q.1 ≠ oid ∧ (Prod.snd q).status = .pending then
          (q.1, { q.2 with status := OfferStatus.lost })
        else q).filter fun q => decide ((Prod.snd q).status = .won)).length
      = (l.filter fun q => decide ((Prod.snd q).status = .won)).length := by
  induction l with
  | nil => rfl
  | cons q qs ih =>
      obtain ⟨k₀, v₀⟩ := q
      rw [List.map_cons]
      by_cases h₀ : k₀ ≠ oid ∧ v₀.status = OfferStatus.pending
      · rw [if_pos h₀]
        have hnw : v₀.status ≠ OfferStatus.won := by rw [h₀.2]; intro hc; cases hc
        simp [List.filter, h₀.2, hnw, ih]
      · rw [if_neg h₀]
        by_cases hw : v₀.status = OfferStatus.won <;> simp [List.filter, hw, ih]

/-- Setting the winning offer in an all-PENDING offer map yields exactly one
WON entry. -/
theorem filter_won_alSet_pending (oid : OfferId) (w : Offer) (hw : w.status = .won)
    (l : List (OfferId × Offer))
    (hall : ∀ q ∈ l, (Prod.snd q).status = .pending) :
    ((alSet oid w l).filter fun q => decide ((Prod.snd q).status = .won)).length = 1 := by
  induction l with
  | nil => simp [alSet, List.filter, hw]
  | cons q qs ih =>
      obtain ⟨k₀, v₀⟩ := q
      have hv₀ : v₀.status = OfferStatus.pending := hall (k₀, v₀) (by simp)
      have hv₀nw : v₀.status ≠ OfferStatus.won := by rw [hv₀]; intro hc; cases hc
      have htail : ∀ q ∈ qs, (Prod.snd q).status = OfferStatus.pending :=
        fun q hq => hall q (List.mem_cons_of_mem _ hq)
      by_cases h₀ : k₀ = oid
      · subst h₀
        have hnone : (qs.filter fun q => decide ((Prod.snd q).status = .won)).length = 0 := by
          rw [List.length_eq_zero, List.filter_eq_nil_iff]
          intro q hq
          have := htail q hq
          simp [this]
        rw [show alSet k₀ w ((k₀, v₀) :: qs) = (k₀, w) :: qs by simp [alSet]]
        simp [List.filter, hw, hnone]
      · rw [show alSet oid w ((k₀, v₀) :: qs) = (k₀, v₀) :: alSet oid w qs by
          simp [alSet, h₀]]
        simp [List.filter, hv₀nw, ih htail]

/- ----------------- C1 ----------------- -/

/-- C1: a valid `corrida_aceita` on a SEARCHING ride whose offers are all
still PENDING awards the ride: the accepted offer becomes the unique WON
offer, every other offer becomes LOST and its driver is sent
`offer_lost{already_taken}`, the ride ends up ACCEPTED with `winnerSid` the
acceptor and its auction timer cancelled, the room gets the `corrida_aceita`
broadcast and the winner `offer_won`; and once a ride is no longer SEARCHING
any further acceptance attempt leaves the state untouched, so at most one
winner ever exists. -/
theorem claim1_award (st : ServerState) (sid : SocketId) (p : AcceptPayload)
    (hrid : p.rideId ≠ "") (hoid : p.offerId ≠ "")
    (r : Ride) (hget : alGet p.rideId st.rides = some r)
    (hs : r.status = .searching)
    (off : Offer) (hoff : alGet p.offerId r.offered = some off)
    (hsid : off.socketId = sid) (hpend : off.status = .pending)
    (hall : ∀ q ∈ r.offered, (Prod.snd q).status = .pending) :
    (∃ r', alGet p.rideId (hCorridaAceita st sid p).1.rides = some r'
        ∧ r'.status = .accepted
        ∧ r'.winnerSid = some sid
        ∧ r'.timer = none
        ∧ alGet p.offerId r'.offered = some { off with status := OfferStatus.won }
        ∧ (r'.offered.filter fun q => decide ((Prod.snd q).status = .won)).length = 1
        ∧ (∀ q ∈ r.offered, Prod.fst q ≠ p.offerId →
            (q.1, { q.2 with status := OfferStatus.lost }) ∈ r'.offered
              ∧ Emit.toSocket (Prod.snd q).socketId (.offerLost p.rideId "already_taken")
                  ∈ (hCorridaAceita st sid p).2))
      ∧ (hCorridaAceita st sid p).1.timers = removeTimer r.timer st.timers
      ∧ Emit.toSocket sid (.offerWon p.rideId) ∈ (hCorridaAceita st sid p).2
      ∧ Emit.toRoom p.rideId (Event.corridaAceitaEv p.rideId p.driverId p.driverName
          p.driverPhone p.vehicleModel p.vehiclePlate "accepted" "Motorista a caminho"
          st.time p.approachPolyline) ∈ (hCorridaAceita st sid p).2
      ∧ (∀ (st₂ : ServerState) (sid₂ : SocketId) (p₂ : AcceptPayload),
          (alGet p₂.rideId st₂.rides = none
            ∨ ∃ r₂, alGet p₂.rideId st₂.rides = some r₂ ∧ r₂.status ≠ .searching) →
          (hCorridaAceita st₂ sid₂ p₂).1 = st₂) := by
  have hpersist : ∀ (st₂ : ServerState) (sid₂ : SocketId) (p₂ : AcceptPayload),
      (alGet p₂.rideId st₂.rides = none
        ∨ ∃ r₂, alGet p₂.rideId st₂.rides = some r₂ ∧ r₂.status ≠ .searching) →
      (hCorridaAceita st₂ sid₂ p₂).1 = st₂ := by
    intro st₂ sid₂ p₂ hcase
    unfold hCorridaAceita
    by_cases hg : p₂.rideId = "" ∨ p₂.offerId = ""
    · simp [hg]
    · rcases hcase with hnone | ⟨r₂, hr₂, hs₂⟩
      · simp [hg, hnone]
      · simp [hg, hr₂, hs₂]
  have hok : ¬(off.socketId ≠ sid ∨ off.status ≠ OfferStatus.pending) := by
    simp [hsid, hpend]
  unfold hCorridaAceita
  simp only [hrid, hoid, hget, hs, hoff, hok, false_or, if_false, ite_false,
    reduceCtorEq, ne_eq, not_false_eq_true, reduceIte]
  refine ⟨⟨_, alGet_alSet_self _ _ _, rfl, rfl, rfl, ?_, ?_, ?_⟩, rfl, ?_, ?_, hpersist⟩
  · rw [alGet_markLost, alGet_alSet_self]
  · rw [filter_won_markLost]
    exact filter_won_alSet_pending _ _ rfl _ hall
  · intro q hq hne
    have hq₁ : q ∈ alSet p.offerId { off with status := OfferStatus.won } r.offered :=
      mem_alSet_of_ne _ hq hne
    constructor
    · refine List.mem_map.mpr ⟨q, hq₁, ?_⟩
      rw [if_pos ⟨hne, hall q hq⟩]
    · refine List.mem_append_left _ (List.mem_filterMap.mpr ⟨q, hq₁, ?_⟩)
      rw [if_pos ⟨hne, hall q hq⟩]
  · simp
  · simp

/-- A searching ride with two pending offers, one per driver. -/
def rideC1 : Ride :=
  { status := .searching, passengerSid := "p1", passengerName := "Ana",
    pickupAddress := "", destinationAddress := "", pickup := ⟨0, 0⟩, dest := ⟨1, 1⟩,
    routePolyline := none, fare := none,
    offered := [("u0", ⟨"d1", 0, .pending⟩), ("u1", ⟨"d2", 0, .pending⟩)],
    offeredSockets := ["d1", "d2"], winnerSid := none, round := 0, timer := some 0 }

def stC1 : ServerState :=
  ⟨[], [("r1", rideC1)], [("r1", ["p1"])], [⟨0, "r1", .batch, 12000⟩], 1, 2, 0⟩

def payC1 : AcceptPayload :=
  ⟨"r1", "u0", some "D1", some "Joao", some "+55", some "Car", some "ABC-1234", none⟩

/-- Witness for `claim1_award`: driver `d1` accepts offer `u0`; the ride is
accepted with exactly one WON offer and `d2`'s offer turns LOST with an
`already_taken` notice. -/
theorem claim1_award_witness :
    ∃ r', alGet "r1" (hCorridaAceita stC1 "d1" payC1).1.rides = some r'
      ∧ r'.status = .accepted
      ∧ r'.winnerSid = some "d1"
      ∧ (r'.offered.filter fun q => decide ((Prod.snd q).status = .won)).length = 1
      ∧ ("u1", (⟨"d2", 0, OfferStatus.lost⟩ : Offer)) ∈ r'.offered
      ∧ Emit.toSocket "d2" (.offerLost "r1" "already_taken")
          ∈ (hCorridaAceita stC1 "d1" payC1).2 := by
  have h := claim1_award stC1 "d1" payC1 (by decide) (by decide) rideC1 rfl rfl
    ⟨"d1", 0, .pending⟩ rfl rfl rfl (by decide)
  obtain ⟨⟨r', h₁, h₂, h₃, h₄, h₅, h₆, h₇⟩, -⟩ := h
  have h₈ := h₇ ("u1", ⟨"d2", 0, .pending⟩) (by decide) (by decide)
  exact ⟨r', h₁, h₂, h₃, h₆, h₈.1, h₈.2⟩

/- ----------------- C9 supporting lemmas ----------------- -/

/-- A dispatch step keeps the ride in the registry and never decreases its
round counter. -/
theorem dispatchRound_round_ge (cfg : Config) (hav : Coord -> Coord -> Rat)
    (st : ServerState) (rid : RideId) (r : Ride)
    (hget : alGet rid st.rides = some r) :
    Exists fun r' => alGet rid (dispatchRound cfg hav st rid).1.rides = some r'
      /\ r.round <= r'.round := by
  by_cases hs : r.status = RideStatus.searching
  case neg =>
    have hd : alGet rid (dispatchRound cfg hav st rid).1.rides = some r := by
      unfold dispatchRound
      simp [hget, hs]
    exact ⟨r, hd, le_refl _⟩
  case pos =>
  by_cases hemp : dispatchBatch cfg hav st r = []
  case pos =>
    by_cases hge : (r.round : Int) >= (cfg.MAX_ROUNDS : Int) - 1
    case pos =>
      have hd : alGet rid (dispatchRound cfg hav st rid).1.rides
          = some { r with status := RideStatus.failed, timer := none } := by
        unfold dispatchRound
        simp [hget, hs, hemp, hge, alGet_alSet_self]
      exact ⟨_, hd, le_refl _⟩
    case neg =>
      have hd : alGet rid (dispatchRound cfg hav st rid).1.rides
          = some { r with round := r.round + 1, timer := some st.nextTimer } := by
        unfold dispatchRound
        simp [hget, hs, hemp, hge, alGet_alSet_self]
      exact ⟨_, hd, Nat.le_succ _⟩
  case neg =>
    have hne : (dispatchBatch cfg hav st r).isEmpty = false := by
      simp [List.isEmpty_iff, hemp]
    have hd : alGet rid (dispatchRound cfg hav st rid).1.rides
        = some { (mintOffers rid st.time (st.time + cfg.OFFER_TTL_MS) r st.nextUid
            (dispatchBatch cfg hav st r)).1 with timer := some st.nextTimer } := by
      unfold dispatchRound
      simp [hget, hs, hne, alGet_alSet_self]
    refine ⟨_, hd, ?_⟩
    have hr := (mintOffers_fields rid st.time (st.time + cfg.OFFER_TTL_MS) r st.nextUid
      (dispatchBatch cfg hav st r)).2.2.2
    simp [hr]

/-- A dispatch step on a ride whose `timer` field is null keeps every
pending timer. -/
theorem dispatchRound_timers_superset (cfg : Config) (hav : Coord -> Coord -> Rat)
    (st : ServerState) (rid : RideId) (r : Ride)
    (hget : alGet rid st.rides = some r) (htimer : r.timer = none) :
    forall t, t ∈ st.timers -> t ∈ (dispatchRound cfg hav st rid).1.timers := by
  intro t ht
  unfold dispatchRound
  by_cases hs : r.status = RideStatus.searching
  case neg => simp [hget, hs, ht]
  case pos =>
  by_cases hemp : dispatchBatch cfg hav st r = []
  case pos =>
    by_cases hge : (r.round : Int) >= (cfg.MAX_ROUNDS : Int) - 1
    case pos => simp [hget, hs, hemp, hge, removeTimer, htimer, ht]
    case neg => simp [hget, hs, hemp, hge, ht]
  case neg =>
    have hne : (dispatchBatch cfg hav st r).isEmpty = false := by
      simp [List.isEmpty_iff, hemp]
    have hmt : (mintOffers rid st.time (st.time + cfg.OFFER_TTL_MS) r st.nextUid
        (dispatchBatch cfg hav st r)).1.timer = none := by
      rw [(mintOffers_fields rid st.time (st.time + cfg.OFFER_TTL_MS) r st.nextUid
        (dispatchBatch cfg hav st r)).2.2.1, htimer]
    simp [hget, hs, hne, hmt, removeTimer, ht]

/- ----------------- C9 ----------------- -/

/-- C9: `nova_corrida` with an already-registered rideId unconditionally
overwrites the record with a fresh SEARCHING one (empty offers, round 0,
null timer) and cancels nothing: every previously pending timer — in
particular the superseded record's auction timer — survives the whole
handler; and when a pending batch timer for that rideId later fires while
the new record is SEARCHING, it finds the new record and advances its round. -/
theorem claim9_overwrite (cfg : Config) (hav : Coord -> Coord -> Rat)
    (st : ServerState) (sid : SocketId) (p : NovaPayload)
    (hrid : p.rideId ≠ "") :
    alGet p.rideId (registerRide st sid p).rides = some
        { status := RideStatus.searching
          passengerSid := sid
          passengerName := match p.passengerName with
            | some s => if s = "" then "Passageiro" else s
            | none => "Passageiro"
          pickupAddress := p.pickupAddress.getD ""
          destinationAddress := p.destinationAddress.getD ""
          pickup := p.pickupLocation
          dest := p.destinationLocation
          routePolyline := match p.routePolyline with
            | some s => if s = "" then none else some s
            | none => none
          fare := match p.fare with
            | some q => if q = 0 then none else some q
            | none => none
          offered := []
          offeredSockets := []
          winnerSid := none
          round := 0
          timer := none }
      /\ (registerRide st sid p).timers = st.timers
      /\ hNovaCorrida cfg hav st sid p
          = dispatchRound cfg hav (registerRide st sid p) p.rideId
      /\ (forall t, t ∈ st.timers -> t ∈ (hNovaCorrida cfg hav st sid p).1.timers)
      /\ (forall (st2 : ServerState) (tid : Nat) (t : PendingTimer) (r2 : Ride),
          st2.timers.find? (fun t' => t'.id = tid) = some t ->
          t.kind = TimerKind.batch -> t.rideId = p.rideId ->
          alGet p.rideId st2.rides = some r2 -> r2.status = RideStatus.searching ->
          Exists fun r3 => alGet p.rideId (fireTimer cfg hav st2 tid).1.rides = some r3
            /\ r2.round + 1 <= r3.round) := by
  have hreg : alGet p.rideId (registerRide st sid p).rides = some
      { status := RideStatus.searching
        passengerSid := sid
        passengerName := match p.passengerName with
          | some s => if s = "" then "Passageiro" else s
          | none => "Passageiro"
        pickupAddress := p.pickupAddress.getD ""
        destinationAddress := p.destinationAddress.getD ""
        pickup := p.pickupLocation
        dest := p.destinationLocation
        routePolyline := match p.routePolyline with
          | some s => if s = "" then none else some s
          | none => none
        fare := match p.fare with
          | some q => if q = 0 then none else some q
          | none => none
        offered := []
        offeredSockets := []
        winnerSid := none
        round := 0
        timer := none } := by
    unfold registerRide
    exact alGet_alSet_self _ _ _
  have hsplit : hNovaCorrida cfg hav st sid p
      = dispatchRound cfg hav (registerRide st sid p) p.rideId := by
    simp [hNovaCorrida, hrid]
  refine ⟨hreg, rfl, hsplit, ?_, ?_⟩
  · intro t ht
    rw [hsplit]
    exact dispatchRound_timers_superset cfg hav (registerRide st sid p) p.rideId _
      hreg rfl t ht
  · intro st2 tid t r2 hfind hkind hrid2 hget2 hs2
    obtain ⟨tid', rid', kind', delay'⟩ := t
    simp only at hkind hrid2
    subst hkind
    subst hrid2
    simp only [fireTimer, hfind, hget2, hs2]
    simp only [show (RideStatus.searching ≠ RideStatus.searching) = False by simp, if_false]
    obtain ⟨r3, hr3, hle⟩ := dispatchRound_round_ge cfg hav
      { st2 with
          timers := st2.timers.filter fun t' => decide (t'.id ≠ tid),
          rides := alSet p.rideId
            { r2 with status := RideStatus.searching, round := r2.round + 1 } st2.rides }
      p.rideId { r2 with status := RideStatus.searching, round := r2.round + 1 }
      (alGet_alSet_self _ _ _)
    exact ⟨r3, hr3, hle⟩

def pC9 : NovaPayload := ⟨"r1", some "Bob", none, none, ⟨2, 2⟩, ⟨3, 3⟩, none, none⟩

/-- The record that replaces `rideC7` after `nova_corrida` re-uses its
rideId (the immediate empty dispatch round has already advanced it to round
1 and armed retry timer 1). -/
def newRideC9 : Ride :=
  { status := .searching, passengerSid := "p2", passengerName := "Bob",
    pickupAddress := "", destinationAddress := "", pickup := ⟨2, 2⟩, dest := ⟨3, 3⟩,
    routePolyline := none, fare := none, offered := [], offeredSockets := [],
    winnerSid := none, round := 1, timer := some 1 }

/-- Witness for `claim9_overwrite`: re-posting `r1` leaves the superseded
record's batch timer (handle 0) pending, and firing it advances the round of
the replacement auction. -/
theorem claim9_overwrite_witness :
    (⟨0, "r1", TimerKind.batch, 12000⟩ : PendingTimer)
        ∈ (hNovaCorrida cfg0 hav0 stC7 "p2" pC9).1.timers
      ∧ ∃ r3, alGet "r1"
            (fireTimer cfg0 hav0 (hNovaCorrida cfg0 hav0 stC7 "p2" pC9).1 0).1.rides
          = some r3
        ∧ newRideC9.round + 1 ≤ r3.round := by
  have h := claim9_overwrite cfg0 hav0 stC7 "p2" pC9 (by decide)
  refine ⟨h.2.2.2.1 _ (by decide), ?_⟩
  exact h.2.2.2.2 (hNovaCorrida cfg0 hav0 stC7 "p2" pC9).1 0
    ⟨0, "r1", .batch, 12000⟩ newRideC9 (by decide) rfl rfl (by decide) rfl

/- ----------------- C8 supporting lemmas ----------------- -/

/-- Dispatch never touches the driver registry. -/
theorem dispatchRound_drivers_eq (cfg : Config) (hav : Coord -> Coord -> Rat)
    (st : ServerState) (rid : RideId) :
    (dispatchRound cfg hav st rid).1.driversBySocket = st.driversBySocket := by
  unfold dispatchRound
  rcases hget : alGet rid st.rides with - | r
  · rfl
  · by_cases hs : r.status = RideStatus.searching
    · by_cases hemp : dispatchBatch cfg hav st r = []
      · by_cases hge : (r.round : Int) >= (cfg.MAX_ROUNDS : Int) - 1 <;>
          simp [hs, hemp, hge]
      · have hne : (dispatchBatch cfg hav st r).isEmpty = false := by
          simp [List.isEmpty_iff, hemp]
        simp [hs, hne]
    · simp [hs]

/-- Dispatch either leaves the ride registry alone or updates its own ride
in place. -/
theorem dispatchRound_rides_shape (cfg : Config) (hav : Coord -> Coord -> Rat)
    (st : ServerState) (rid : RideId) :
    (dispatchRound cfg hav st rid).1.rides = st.rides
      ∨ ∃ v, (dispatchRound cfg hav st rid).1.rides = alSet rid v st.rides := by
  unfold dispatchRound
  rcases hget : alGet rid st.rides with - | r
  · exact Or.inl rfl
  · by_cases hs : r.status = RideStatus.searching
    · by_cases hemp : dispatchBatch cfg hav st r = []
      · by_cases hge : (r.round : Int) >= (cfg.MAX_ROUNDS : Int) - 1
        · exact Or.inr ⟨_, by simp [hs, hemp, hge]; rfl⟩
        · exact Or.inr ⟨_, by simp [hs, hemp, hge]; rfl⟩
      · have hne : (dispatchBatch cfg hav st r).isEmpty = false := by
          simp [List.isEmpty_iff, hemp]
        exact Or.inr ⟨_, by simp [hs, hne]; rfl⟩
    · exact Or.inl (by simp [hs])

/-- Dispatch of one ride never emits `corrida_disponivel` for another. -/
theorem dispatchRound_targets_ne (cfg : Config) (hav : Coord -> Coord -> Rat)
    (st : ServerState) (rid₀ rid : RideId) (hne : rid₀ ≠ rid) :
    dispoTargets rid (dispatchRound cfg hav st rid₀).2 = [] := by
  unfold dispatchRound
  rcases hget : alGet rid₀ st.rides with - | r
  · rfl
  · by_cases hs : r.status = RideStatus.searching
    · by_cases hemp : dispatchBatch cfg hav st r = []
      · by_cases hge : (r.round : Int) >= (cfg.MAX_ROUNDS : Int) - 1 <;>
          simp [hs, hemp, hge, dispoTargets]
      · have hne' : (dispatchBatch cfg hav st r).isEmpty = false := by
          simp [List.isEmpty_iff, hemp]
        simp [hs, hne', mintOffers_targets, hne]
    · simp [hs]

/-- Dispatch of one ride does not move other rides' records. -/
theorem dispatchRound_rides_other (cfg : Config) (hav : Coord -> Coord -> Rat)
    (st : ServerState) (rid₀ rid : RideId) (hne : rid ≠ rid₀) :
    alGet rid (dispatchRound cfg hav st rid₀).1.rides = alGet rid st.rides := by
  rcases dispatchRound_rides_shape cfg hav st rid₀ with h | ⟨v, h⟩
  · rw [h]
  · rw [h, alGet_alSet_ne _ _ hne]

/-- Shortlist socket ids come from registry keys. -/
theorem selector_sids_sub (cfg : Config) (hav : Coord -> Coord -> Rat)
    (st : ServerState) (pickup : Coord) (s : SocketId)
    (h : s ∈ (listCandidateDrivers cfg hav st pickup).map Candidate.socketId) :
    s ∈ st.driversBySocket.map Prod.fst := by
  obtain ⟨c, hc, hcs⟩ := List.mem_map.mp h
  obtain ⟨hmem, -, -⟩ := mem_listCandidateDrivers.mp hc
  exact List.mem_map.mpr ⟨(c.socketId, c.info), hmem, hcs⟩

/-- With unique registry keys, the shortlist solicits each socket at most
once. -/
theorem selector_sids_nodup (cfg : Config) (hav : Coord -> Coord -> Rat)
    (st : ServerState) (pickup : Coord)
    (hd : (st.driversBySocket.map Prod.fst).Nodup) :
    ((listCandidateDrivers cfg hav st pickup).map Candidate.socketId).Nodup := by
  unfold listCandidateDrivers
  apply ((List.perm_insertionSort candLe _).map Candidate.socketId).nodup_iff.mpr
  revert hd
  generalize hgen : (fun p : SocketId × DriverInfo =>
    if freshEligible cfg st.time p.2 then
      some (⟨p.1, p.2, distKm hav (p.2.last.map fun l => ⟨l.lat, l.lng⟩) (some pickup)⟩ : Candidate)
    else none) = g
  have hg : forall p c, g p = some c -> c.socketId = p.1 := by
    intro p c hpc
    rw [← hgen] at hpc
    by_cases he : freshEligible cfg st.time p.2
    · simp [he] at hpc
      rw [← hpc]
    · simp [he] at hpc
  have hsub : forall (l : List (SocketId × DriverInfo)) (s : SocketId),
      s ∈ (l.filterMap g).map Candidate.socketId -> s ∈ l.map Prod.fst := by
    intro l s hs
    obtain ⟨c, hc, hcs⟩ := List.mem_map.mp hs
    obtain ⟨p, hp, hpc⟩ := List.mem_filterMap.mp hc
    exact List.mem_map.mpr ⟨p, hp, by rw [← hcs, hg p c hpc]⟩
  induction st.driversBySocket with
  | nil => intro hd; simp
  | cons p l ih =>
      intro hd
      simp only [List.map_cons, List.nodup_cons] at hd
      rcases hgp : g p with - | c
      · simp only [List.filterMap_cons, hgp]
        exact ih hd.2
      · simp only [List.filterMap_cons, hgp, List.map_cons, List.nodup_cons]
        refine ⟨fun hc => hd.1 ?_, ih hd.2⟩
        rw [← hg p c hgp]
        exact hsub l c.socketId (by rw [hg p c hgp] at hc ⊢; exact hc)

/-- Batch socket ids are pairwise distinct. -/
theorem batch_sids_nodup (cfg : Config) (hav : Coord -> Coord -> Rat)
    (st : ServerState) (r : Ride)
    (hd : (st.driversBySocket.map Prod.fst).Nodup) :
    ((dispatchBatch cfg hav st r).map Candidate.socketId).Nodup := by
  have hsub : (dispatchBatch cfg hav st r).Sublist
      (listCandidateDrivers cfg hav st r.pickup) :=
    (List.take_sublist _ _).trans (List.filter_sublist _)
  exact (hsub.map Candidate.socketId).nodup (selector_sids_nodup cfg hav st r.pickup hd)

/-- Every batch member is outside the ride's already-offered set. -/
theorem batch_sids_not_offered (cfg : Config) (hav : Coord -> Coord -> Rat)
    (st : ServerState) (r : Ride) (c : Candidate)
    (hc : c ∈ dispatchBatch cfg hav st r) : c.socketId ∉ r.offeredSockets := by
  have hcf := (List.take_sublist _ _).mem hc
  have := (List.mem_filter.mp hcf).2
  simpa using this

/-- The four facts about one dispatch step that drive the monotone-
solicitation induction: its `corrida_disponivel` targets are distinct, were
outside the ride's offered set before the step, are inside it afterwards,
and the offered set of any ride only grows. -/
theorem dispatch_c8 (cfg : Config) (hav : Coord -> Coord -> Rat)
    (st : ServerState) (rid₀ rid : RideId)
    (hd : (st.driversBySocket.map Prod.fst).Nodup) :
    (dispoTargets rid (dispatchRound cfg hav st rid₀).2).Nodup
      ∧ (∀ s ∈ dispoTargets rid (dispatchRound cfg hav st rid₀).2,
          ∃ r, alGet rid st.rides = some r ∧ s ∉ r.offeredSockets)
      ∧ (∀ s ∈ dispoTargets rid (dispatchRound cfg hav st rid₀).2,
          ∃ r', alGet rid (dispatchRound cfg hav st rid₀).1.rides = some r'
            ∧ s ∈ r'.offeredSockets)
      ∧ (∀ r', alGet rid (dispatchRound cfg hav st rid₀).1.rides = some r' →
          ∃ r, alGet rid st.rides = some r
            ∧ ∀ x ∈ r.offeredSockets, x ∈ r'.offeredSockets) := by
  by_cases hr : rid₀ = rid
  case neg =>
    have ht := dispatchRound_targets_ne cfg hav st rid₀ rid hr
    have hro := dispatchRound_rides_other cfg hav st rid₀ rid (fun h => hr h.symm)
    refine ⟨by rw [ht]; exact List.nodup_nil, ?_, ?_, ?_⟩
    · intro s hsm; rw [ht] at hsm; cases hsm
    · intro s hsm; rw [ht] at hsm; cases hsm
    · intro r' h
      rw [hro] at h
      exact ⟨r', h, fun x hx => hx⟩
  case pos =>
  subst hr
  rcases hget : alGet rid₀ st.rides with - | r
  · have hid : dispatchRound cfg hav st rid₀ = (st, []) := by
      unfold dispatchRound; simp [hget]
    rw [hid]
    refine ⟨List.nodup_nil, ?_, ?_, ?_⟩
    · intro s hsm; cases hsm
    · intro s hsm; cases hsm
    · intro r' h
      have h' : alGet rid₀ st.rides = some r' := h
      rw [hget] at h'
      simp at h'
  by_cases hs : r.status = RideStatus.searching
  case neg =>
    have hid : dispatchRound cfg hav st rid₀ = (st, []) := by
      unfold dispatchRound; simp [hget, hs]
    rw [hid]
    refine ⟨List.nodup_nil, ?_, ?_, ?_⟩
    · intro s hsm; cases hsm
    · intro s hsm; cases hsm
    · intro r' h
      have h' : alGet rid₀ st.rides = some r' := h
      rw [hget] at h'
      injection h' with h'
      subst h'
      exact ⟨r, rfl, fun x hx => hx⟩
  case pos =>
  have htar := dispatchRound_targets cfg hav st rid₀ r hget hs
  by_cases hemp : dispatchBatch cfg hav st r = []
  case pos =>
    have htar0 : dispoTargets rid₀ (dispatchRound cfg hav st rid₀).2 = [] := by
      rw [htar, hemp]; rfl
    refine ⟨by rw [htar0]; exact List.nodup_nil, ?_, ?_, ?_⟩
    · intro s hsm; rw [htar0] at hsm; cases hsm
    · intro s hsm; rw [htar0] at hsm; cases hsm
    · by_cases hge : (r.round : Int) >= (cfg.MAX_ROUNDS : Int) - 1
      · have heq : (dispatchRound cfg hav st rid₀).1.rides
            = alSet rid₀ { r with status := RideStatus.failed, timer := none } st.rides := by
          unfold dispatchRound; simp [hget, hs, hemp, hge]
        intro r' h
        rw [heq, alGet_alSet_self] at h
        injection h with h
        subst h
        exact ⟨r, rfl, fun x hx => hx⟩
      · have heq : (dispatchRound cfg hav st rid₀).1.rides
            = alSet rid₀ { r with round := r.round + 1, timer := some st.nextTimer } st.rides := by
          unfold dispatchRound; simp [hget, hs, hemp, hge]
        intro r' h
        rw [heq, alGet_alSet_self] at h
        injection h with h
        subst h
        exact ⟨r, rfl, fun x hx => hx⟩
  case neg =>
    have hne : (dispatchBatch cfg hav st r).isEmpty = false := by
      simp [List.isEmpty_iff, hemp]
    have heq : (dispatchRound cfg hav st rid₀).1.rides
        = alSet rid₀ { (mintOffers rid₀ st.time (st.time + cfg.OFFER_TTL_MS) r st.nextUid
            (dispatchBatch cfg hav st r)).1 with timer := some st.nextTimer } st.rides := by
      unfold dispatchRound; simp [hget, hs, hne]
    refine ⟨?_, ?_, ?_, ?_⟩
    · rw [htar]
      exact batch_sids_nodup cfg hav st r hd
    · intro s hsm
      rw [htar] at hsm
      obtain ⟨c, hc, rfl⟩ := List.mem_map.mp hsm
      exact ⟨r, rfl, batch_sids_not_offered cfg hav st r c hc⟩
    · intro s hsm
      rw [htar] at hsm
      refine ⟨_, by rw [heq]; exact alGet_alSet_self _ _ _, ?_⟩
      exact (mintOffers_offeredSockets_mem rid₀ st.time (st.time + cfg.OFFER_TTL_MS)
        r st.nextUid (dispatchBatch cfg hav st r) s).mpr (Or.inr hsm)
    · intro r' h
      rw [heq, alGet_alSet_self] at h
      injection h with h
      subst h
      refine ⟨r, rfl, fun x hx => ?_⟩
      exact (mintOffers_offeredSockets_mem rid₀ st.time (st.time + cfg.OFFER_TTL_MS)
        r st.nextUid (dispatchBatch cfg hav st r) x).mpr (Or.inl hx)

/-- `identificar` emits no offers and keeps the ride registry. -/
theorem hIdentificar_c8 (st : ServerState) (sid : SocketId) (p : IdentPayload)
    (rid : RideId) :
    dispoTargets rid (hIdentificar st sid p).2 = []
      ∧ (hIdentificar st sid p).1.rides = st.rides := by
  unfold hIdentificar
  split_ifs <;> exact ⟨rfl, rfl⟩

/-- `driver_status` emits no offers and keeps the ride registry. -/
theorem hDriverStatus_c8 (st : ServerState) (sid : SocketId) (b : Bool)
    (rid : RideId) :
    dispoTargets rid (hDriverStatus st sid b).2 = []
      ∧ (hDriverStatus st sid b).1.rides = st.rides := by
  unfold hDriverStatus
  rcases alGet sid st.driversBySocket with - | rec <;> exact ⟨rfl, rfl⟩

/-- `driver_localizacao` emits no offers and keeps the ride registry. -/
theorem hDriverLoc_c8 (st : ServerState) (sid : SocketId) (p : LocPayload)
    (rid : RideId) :
    dispoTargets rid (hDriverLoc st sid p).2 = []
      ∧ (hDriverLoc st sid p).1.rides = st.rides := by
  unfold hDriverLoc
  rcases p.lat with - | lat <;> rcases p.lng with - | lng <;>
    try exact ⟨rfl, rfl⟩
  rcases alGet sid st.driversBySocket with - | rec <;>
    rcases p.rideId with - | rid' <;> try exact ⟨rfl, rfl⟩
  all_goals by_cases h : rid' = "" <;> simp [h, dispoTargets]

/-- `enviar_mensagem` emits no offers and keeps the ride registry. -/
theorem hEnviarMensagem_c8 (st : ServerState) (p : MsgPayload) (rid : RideId) :
    dispoTargets rid (hEnviarMensagem st p).2 = []
      ∧ (hEnviarMensagem st p).1.rides = st.rides := by
  unfold hEnviarMensagem
  rcases p.rideId with - | rid' <;> rcases p.message with - | msg <;>
    try exact ⟨rfl, rfl⟩
  by_cases h : rid' = "" ∨ msg = "" <;> simp [h, dispoTargets]

/-- `disconnect` emits no offers and keeps the ride registry. -/
theorem hDisconnect_c8 (st : ServerState) (sid : SocketId) (rid : RideId) :
    dispoTargets rid (hDisconnect st sid).2 = []
      ∧ (hDisconnect st sid).1.rides = st.rides := by
  unfold hDisconnect
  rcases alGet sid st.driversBySocket with - | rec <;> exact ⟨rfl, rfl⟩

/-- `corrida_status` emits no offers, and ride records only disappear (with
unique keys) or stay identical. -/
theorem hCorridaStatus_c8 (st : ServerState) (p : StatusPayload) (rid : RideId)
    (hrk : (st.rides.map Prod.fst).Nodup) :
    dispoTargets rid (hCorridaStatus st p).2 = []
      ∧ (∀ r', alGet rid (hCorridaStatus st p).1.rides = some r' →
          alGet rid st.rides = some r') := by
  unfold hCorridaStatus
  by_cases hg : p.rideId = "" ∨ p.status = ""
  · simp [hg]
  · by_cases ht : p.status = "completed" ∨ p.status = "canceled"
    · constructor
      · simp only [hg, ht, if_true, if_false]
        rfl
      · intro r' h
        simp only [hg, ht, if_true, if_false] at h
        by_cases hr : rid = p.rideId
        · subst hr
          rw [alGet_alDelete_self hrk] at h
          cases h
        · rw [alGet_alDelete_ne _ hr] at h
          exact h
    · constructor
      · simp only [hg, ht, if_true, if_false]
        rfl
      · intro r' h
        simp only [hg, ht, if_true, if_false] at h
        exact h

/-- The loser notifications contain no `corrida_disponivel`. -/
theorem dispoTargets_lostEmits (rid : RideId) (oid : OfferId) (rid' : RideId)
    (l : List (OfferId × Offer)) :
    dispoTargets rid (l.filterMap fun q =>
      if q.1 ≠ oid ∧ (Prod.snd q).status = OfferStatus.pending then
        some (Emit.toSocket q.2.socketId (Event.offerLost rid' "already_taken"))
      else none) = [] := by
  rw [dispoTargets, List.filterMap_eq_nil_iff]
  intro m hm
  obtain ⟨q, hq, hqm⟩ := List.mem_filterMap.mp hm
  by_cases hc : q.1 ≠ oid ∧ (Prod.snd q).status = OfferStatus.pending
  · rw [if_pos hc] at hqm
    injection hqm with hqm
    rw [← hqm]
  · rw [if_neg hc] at hqm
    cases hqm

/-- `corrida_aceita` never emits offers, and the award keeps the ride's
offered-connections set unchanged. -/
theorem hCorridaAceita_c8 (st : ServerState) (sid : SocketId) (p : AcceptPayload)
    (rid : RideId) :
    dispoTargets rid (hCorridaAceita st sid p).2 = []
      ∧ (∀ r', alGet rid (hCorridaAceita st sid p).1.rides = some r' →
          ∃ r, alGet rid st.rides = some r
            ∧ ∀ x ∈ r.offeredSockets, x ∈ r'.offeredSockets) := by
  by_cases hg : p.rideId = "" ∨ p.offerId = ""
  · have hred : hCorridaAceita st sid p = (st, []) := by
      unfold hCorridaAceita; simp [hg]
    rw [hred]
    exact ⟨rfl, fun r' h => ⟨r', h, fun x hx => hx⟩⟩
  rcases hget : alGet p.rideId st.rides with - | r
  · have hred : hCorridaAceita st sid p
        = (st, [Emit.toSocket sid (Event.offerLost p.rideId "not_searching")]) := by
      unfold hCorridaAceita; simp [hg, hget]
    rw [hred]
    exact ⟨rfl, fun r' h => ⟨r', h, fun x hx => hx⟩⟩
  by_cases hs : r.status = RideStatus.searching
  case neg =>
    have hred : hCorridaAceita st sid p
        = (st, [Emit.toSocket sid (Event.offerLost p.rideId "not_searching")]) := by
      unfold hCorridaAceita; simp [hg, hget, hs]
    rw [hred]
    exact ⟨rfl, fun r' h => ⟨r', h, fun x hx => hx⟩⟩
  case pos =>
  rcases hoff : alGet p.offerId r.offered with - | off
  · have hred : hCorridaAceita st sid p
        = (st, [Emit.toSocket sid (Event.offerLost p.rideId "offer_invalid")]) := by
      unfold hCorridaAceita; simp [hg, hget, hs, hoff]
    rw [hred]
    exact ⟨rfl, fun r' h => ⟨r', h, fun x hx => hx⟩⟩
  by_cases hv : off.socketId ≠ sid ∨ off.status ≠ OfferStatus.pending
  · have hred : hCorridaAceita st sid p
        = (st, [Emit.toSocket sid (Event.offerLost p.rideId "offer_invalid")]) := by
      unfold hCorridaAceita; simp [hg, hget, hs, hoff, hv]
    rw [hred]
    exact ⟨rfl, fun r' h => ⟨r', h, fun x hx => hx⟩⟩
  · have hred2 : (hCorridaAceita st sid p).2
        = (alSet p.offerId { off with status := OfferStatus.won } r.offered).filterMap
            (fun q =>
              if q.1 ≠ p.offerId ∧ (Prod.snd q).status = OfferStatus.pending then
                some (Emit.toSocket q.2.socketId (Event.offerLost p.rideId "already_taken"))
              else none)
          ++ [Emit.toRoom p.rideId (Event.corridaAceitaEv p.rideId p.driverId p.driverName
                p.driverPhone p.vehicleModel p.vehiclePlate "accepted" "Motorista a caminho"
                st.time p.approachPolyline),
              Emit.toSocket sid (Event.offerWon p.rideId)] := by
      unfold hCorridaAceita; simp [hg, hget, hs, hoff, hv]
    have hred1 : (hCorridaAceita st sid p).1.rides
        = alSet p.rideId
            { r with status := RideStatus.accepted, winnerSid := some sid,
                     offered := (alSet p.offerId { off with status := OfferStatus.won }
                         r.offered).map
                       (fun q =>
                         if q.1 ≠ p.offerId ∧ (Prod.snd q).status = OfferStatus.pending then
                           (q.1, { q.2 with status := OfferStatus.lost })
                         else q),
                     timer := none } st.rides := by
      unfold hCorridaAceita
      simp [hg, hget, hs, hoff, hv]
    constructor
    · rw [hred2, dispoTargets_append, dispoTargets_lostEmits]
      rfl
    · intro r' h
      rw [hred1] at h
      by_cases hr : rid = p.rideId
      · subst hr
        rw [alGet_alSet_self] at h
        injection h with h
        exact ⟨r, hget, fun x hx => by rw [← h]; exact hx⟩
      · rw [alGet_alSet_ne _ _ hr] at h
        exact ⟨r', h, fun x hx => hx⟩

/-- The four monotone-solicitation facts for a timer fire. -/
theorem fireTimer_c8 (cfg : Config) (hav : Coord -> Coord -> Rat)
    (st : ServerState) (tid : Nat) (rid : RideId)
    (hd : (st.driversBySocket.map Prod.fst).Nodup) :
    (dispoTargets rid (fireTimer cfg hav st tid).2).Nodup
      ∧ (∀ s ∈ dispoTargets rid (fireTimer cfg hav st tid).2,
          ∃ r, alGet rid st.rides = some r ∧ s ∉ r.offeredSockets)
      ∧ (∀ s ∈ dispoTargets rid (fireTimer cfg hav st tid).2,
          ∃ r', alGet rid (fireTimer cfg hav st tid).1.rides = some r'
            ∧ s ∈ r'.offeredSockets)
      ∧ (∀ r', alGet rid (fireTimer cfg hav st tid).1.rides = some r' →
          ∃ r, alGet rid st.rides = some r
            ∧ ∀ x ∈ r.offeredSockets, x ∈ r'.offeredSockets) := by
  rcases hfind : st.timers.find? (fun t => t.id = tid) with - | t
  · have hred : fireTimer cfg hav st tid = (st, []) := by
      unfold fireTimer; rw [hfind]
    rw [hred]
    exact ⟨List.nodup_nil, fun s hsm => absurd hsm (by simp),
      fun s hsm => absurd hsm (by simp), fun r' h => ⟨r', h, fun x hx => hx⟩⟩
  obtain ⟨tid', rid', kind', delay'⟩ := t
  rcases kind' with - | - | -
  · -- retry
    have hred : fireTimer cfg hav st tid
        = dispatchRound cfg hav
            { st with timers := st.timers.filter fun t' => decide (t'.id ≠ tid) } rid' := by
      simp only [fireTimer, hfind]
    rw [hred]
    exact dispatch_c8 cfg hav _ rid' rid hd
  · -- batch
    rcases hrr : alGet rid' st.rides with - | rr
    · have hred : fireTimer cfg hav st tid
          = ({ st with timers := st.timers.filter fun t' => decide (t'.id ≠ tid) }, []) := by
        simp only [fireTimer, hfind]
        rw [hrr]
      rw [hred]
      exact ⟨List.nodup_nil, fun s hsm => absurd hsm (by simp),
        fun s hsm => absurd hsm (by simp), fun r' h => ⟨r', h, fun x hx => hx⟩⟩
    · by_cases hsr : rr.status = RideStatus.searching
      case neg =>
        have hred : fireTimer cfg hav st tid
            = ({ st with timers := st.timers.filter fun t' => decide (t'.id ≠ tid) }, []) := by
          simp only [fireTimer, hfind]
          rw [hrr]
          exact if_pos hsr
        rw [hred]
        exact ⟨List.nodup_nil, fun s hsm => absurd hsm (by simp),
          fun s hsm => absurd hsm (by simp), fun r' h => ⟨r', h, fun x hx => hx⟩⟩
      case pos =>
        have hred : fireTimer cfg hav st tid
            = dispatchRound cfg hav
                { st with
                    timers := st.timers.filter fun t' => decide (t'.id ≠ tid),
                    rides := alSet rid' { rr with round := rr.round + 1 } st.rides } rid' := by
          simp only [fireTimer, hfind]
          rw [hrr]
          exact if_neg (fun hc => hc hsr)
        rw [hred]
        obtain ⟨hc1, hc2, hc3, hc4⟩ := dispatch_c8 cfg hav
          { st with
              timers := st.timers.filter fun t' => decide (t'.id ≠ tid),
              rides := alSet rid' { rr with round := rr.round + 1 } st.rides } rid' rid hd
        have htrans : ∀ r₁ : Ride,
            alGet rid (alSet rid' { rr with round := rr.round + 1 } st.rides) = some r₁ →
            ∃ r, alGet rid st.rides = some r ∧ r.offeredSockets = r₁.offeredSockets := by
          intro r₁ h₁
          by_cases hr : rid = rid'
          · subst hr
            rw [alGet_alSet_self] at h₁
            injection h₁ with h₁
            exact ⟨rr, hrr, by rw [← h₁]⟩
          · rw [alGet_alSet_ne _ _ hr] at h₁
            exact ⟨r₁, h₁, rfl⟩
        refine ⟨hc1, ?_, hc3, ?_⟩
        · intro s hsm
          obtain ⟨r₁, h₁, hnin⟩ := hc2 s hsm
          obtain ⟨r, hr, heqs⟩ := htrans r₁ h₁
          exact ⟨r, hr, by rw [heqs]; exact hnin⟩
        · intro r' h
          obtain ⟨r₁, h₁, hsub⟩ := hc4 r' h
          obtain ⟨r, hr, heqs⟩ := htrans r₁ h₁
          exact ⟨r, hr, fun x hx => hsub x (by rw [← heqs]; exact hx)⟩
  · -- linger
    have hred : fireTimer cfg hav st tid
        = ({ st with
              timers := st.timers.filter fun t' => decide (t'.id ≠ tid),
              rooms := alDelete rid' st.rooms }, []) := by
      simp only [fireTimer, hfind]
    rw [hred]
    exact ⟨List.nodup_nil, fun s hsm => absurd hsm (by simp),
      fun s hsm => absurd hsm (by simp), fun r' h => ⟨r', h, fun x hx => hx⟩⟩

/-- `nova_corrida` for a different rideId neither solicits for `rid` nor
moves its record. -/
theorem hNovaCorrida_c8 (cfg : Config) (hav : Coord -> Coord -> Rat)
    (st : ServerState) (sid : SocketId) (p : NovaPayload) (rid : RideId)
    (hne : p.rideId ≠ rid) :
    dispoTargets rid (hNovaCorrida cfg hav st sid p).2 = []
      ∧ alGet rid (hNovaCorrida cfg hav st sid p).1.rides = alGet rid st.rides := by
  by_cases hempty : p.rideId = ""
  · simp [hNovaCorrida, hempty]
  · have hsplit : hNovaCorrida cfg hav st sid p
        = dispatchRound cfg hav (registerRide st sid p) p.rideId := by
      simp [hNovaCorrida, hempty]
    rw [hsplit]
    constructor
    · exact dispatchRound_targets_ne cfg hav _ p.rideId rid hne
    · rw [dispatchRound_rides_other cfg hav _ p.rideId rid (fun h => hne h.symm)]
      unfold registerRide
      exact alGet_alSet_ne _ _ (fun h => hne h.symm)

/-- The four monotone-solicitation facts for an arbitrary event step. -/
theorem step_c8 (cfg : Config) (hav : Coord -> Coord -> Rat)
    (st : ServerState) (e : Ev) (rid : RideId)
    (hd : (st.driversBySocket.map Prod.fst).Nodup)
    (hrk : (st.rides.map Prod.fst).Nodup)
    (hnr : ∀ sid p, e = Ev.novaCorrida sid p -> p.rideId ≠ rid) :
    (dispoTargets rid (step cfg hav st e).2).Nodup
      ∧ (∀ s ∈ dispoTargets rid (step cfg hav st e).2,
          ∃ r, alGet rid st.rides = some r ∧ s ∉ r.offeredSockets)
      ∧ (∀ s ∈ dispoTargets rid (step cfg hav st e).2,
          ∃ r', alGet rid (step cfg hav st e).1.rides = some r' ∧ s ∈ r'.offeredSockets)
      ∧ (∀ r', alGet rid (step cfg hav st e).1.rides = some r' →
          ∃ r, alGet rid st.rides = some r
            ∧ ∀ x ∈ r.offeredSockets, x ∈ r'.offeredSockets) := by
  cases e with
  | identificar sid p =>
      obtain ⟨ht, hr⟩ := hIdentificar_c8 st sid p rid
      refine ⟨by rw [show step cfg hav st (Ev.identificar sid p) = hIdentificar st sid p from rfl, ht]; exact List.nodup_nil, ?_, ?_, ?_⟩
      · intro s hsm; rw [show (step cfg hav st (Ev.identificar sid p)).2 = (hIdentificar st sid p).2 from rfl, ht] at hsm; cases hsm
      · intro s hsm; rw [show (step cfg hav st (Ev.identificar sid p)).2 = (hIdentificar st sid p).2 from rfl, ht] at hsm; cases hsm
      · intro r' h
        rw [show (step cfg hav st (Ev.identificar sid p)).1.rides = (hIdentificar st sid p).1.rides from rfl, hr] at h
        exact ⟨r', h, fun x hx => hx⟩
  | driverStatus sid b =>
      obtain ⟨ht, hr⟩ := hDriverStatus_c8 st sid b rid
      refine ⟨by rw [show step cfg hav st (Ev.driverStatus sid b) = hDriverStatus st sid b from rfl, ht]; exact List.nodup_nil, ?_, ?_, ?_⟩
      · intro s hsm; rw [show (step cfg hav st (Ev.driverStatus sid b)).2 = (hDriverStatus st sid b).2 from rfl, ht] at hsm; cases hsm
      · intro s hsm; rw [show (step cfg hav st (Ev.driverStatus sid b)).2 = (hDriverStatus st sid b).2 from rfl, ht] at hsm; cases hsm
      · intro r' h
        rw [show (step cfg hav st (Ev.driverStatus sid b)).1.rides = (hDriverStatus st sid b).1.rides from rfl, hr] at h
        exact ⟨r', h, fun x hx => hx⟩
  | driverLocalizacao sid p =>
      obtain ⟨ht, hr⟩ := hDriverLoc_c8 st sid p rid
      refine ⟨by rw [show step cfg hav st (Ev.driverLocalizacao sid p) = hDriverLoc st sid p from rfl, ht]; exact List.nodup_nil, ?_, ?_, ?_⟩
      · intro s hsm; rw [show (step cfg hav st (Ev.driverLocalizacao sid p)).2 = (hDriverLoc st sid p).2 from rfl, ht] at hsm; cases hsm
      · intro s hsm; rw [show (step cfg hav st (Ev.driverLocalizacao sid p)).2 = (hDriverLoc st sid p).2 from rfl, ht] at hsm; cases hsm
      · intro r' h
        rw [show (step cfg hav st (Ev.driverLocalizacao sid p)).1.rides = (hDriverLoc st sid p).1.rides from rfl, hr] at h
        exact ⟨r', h, fun x hx => hx⟩
  | novaCorrida sid p =>
      obtain ⟨ht, hr⟩ := hNovaCorrida_c8 cfg hav st sid p rid (hnr sid p rfl)
      refine ⟨by rw [show step cfg hav st (Ev.novaCorrida sid p) = hNovaCorrida cfg hav st sid p from rfl, ht]; exact List.nodup_nil, ?_, ?_, ?_⟩
      · intro s hsm; rw [show (step cfg hav st (Ev.novaCorrida sid p)).2 = (hNovaCorrida cfg hav st sid p).2 from rfl, ht] at hsm; cases hsm
      · intro s hsm; rw [show (step cfg hav st (Ev.novaCorrida sid p)).2 = (hNovaCorrida cfg hav st sid p).2 from rfl, ht] at hsm; cases hsm
      · intro r' h
        rw [show (step cfg hav st (Ev.novaCorrida sid p)).1.rides = (hNovaCorrida cfg hav st sid p).1.rides from rfl, hr] at h
        exact ⟨r', h, fun x hx => hx⟩
  | corridaAceita sid p =>
      obtain ⟨ht, hiv⟩ := hCorridaAceita_c8 st sid p rid
      refine ⟨by rw [show step cfg hav st (Ev.corridaAceita sid p) = hCorridaAceita st sid p from rfl, ht]; exact List.nodup_nil, ?_, ?_, ?_⟩
      · intro s hsm; rw [show (step cfg hav st (Ev.corridaAceita sid p)).2 = (hCorridaAceita st sid p).2 from rfl, ht] at hsm; cases hsm
      · intro s hsm; rw [show (step cfg hav st (Ev.corridaAceita sid p)).2 = (hCorridaAceita st sid p).2 from rfl, ht] at hsm; cases hsm
      · exact hiv
  | enviarMensagem sid p =>
      obtain ⟨ht, hr⟩ := hEnviarMensagem_c8 st p rid
      refine ⟨by rw [show step cfg hav st (Ev.enviarMensagem sid p) = hEnviarMensagem st p from rfl, ht]; exact List.nodup_nil, ?_, ?_, ?_⟩
      · intro s hsm; rw [show (step cfg hav st (Ev.enviarMensagem sid p)).2 = (hEnviarMensagem st p).2 from rfl, ht] at hsm; cases hsm
      · intro s hsm; rw [show (step cfg hav st (Ev.enviarMensagem sid p)).2 = (hEnviarMensagem st p).2 from rfl, ht] at hsm; cases hsm
      · intro r' h
        rw [show (step cfg hav st (Ev.enviarMensagem sid p)).1.rides = (hEnviarMensagem st p).1.rides from rfl, hr] at h
        exact ⟨r', h, fun x hx => hx⟩
  | corridaStatus sid p =>
      obtain ⟨ht, hiv⟩ := hCorridaStatus_c8 st p rid hrk
      refine ⟨by rw [show step cfg hav st (Ev.corridaStatus sid p) = hCorridaStatus st p from rfl, ht]; exact List.nodup_nil, ?_, ?_, ?_⟩
      · intro s hsm; rw [show (step cfg hav st (Ev.corridaStatus sid p)).2 = (hCorridaStatus st p).2 from rfl, ht] at hsm; cases hsm
      · intro s hsm; rw [show (step cfg hav st (Ev.corridaStatus sid p)).2 = (hCorridaStatus st p).2 from rfl, ht] at hsm; cases hsm
      · intro r' h
        exact ⟨r', hiv r' h, fun x hx => hx⟩
  | disconnect sid =>
      obtain ⟨ht, hr⟩ := hDisconnect_c8 st sid rid
      refine ⟨by rw [show step cfg hav st (Ev.disconnect sid) = hDisconnect st sid from rfl, ht]; exact List.nodup_nil, ?_, ?_, ?_⟩
      · intro s hsm; rw [show (step cfg hav st (Ev.disconnect sid)).2 = (hDisconnect st sid).2 from rfl, ht] at hsm; cases hsm
      · intro s hsm; rw [show (step cfg hav st (Ev.disconnect sid)).2 = (hDisconnect st sid).2 from rfl, ht] at hsm; cases hsm
      · intro r' h
        rw [show (step cfg hav st (Ev.disconnect sid)).1.rides = (hDisconnect st sid).1.rides from rfl, hr] at h
        exact ⟨r', h, fun x hx => hx⟩
  | fire tid => exact fireTimer_c8 cfg hav st tid rid hd
  | tick dt =>
      refine ⟨List.nodup_nil, ?_, ?_, ?_⟩
      · intro s hsm; cases hsm
      · intro s hsm; cases hsm
      · intro r' h; exact ⟨r', h, fun x hx => hx⟩

/-- `corrida_aceita` never touches the driver registry. -/
theorem hCorridaAceita_drivers (st : ServerState) (sid : SocketId) (p : AcceptPayload) :
    (hCorridaAceita st sid p).1.driversBySocket = st.driversBySocket := by
  unfold hCorridaAceita
  by_cases hg : p.rideId = "" ∨ p.offerId = ""
  · simp [hg]
  rcases hget : alGet p.rideId st.rides with - | r
  · simp [hg, hget]
  by_cases hs : r.status = RideStatus.searching
  case neg => simp [hg, hget, hs]
  rcases hoff : alGet p.offerId r.offered with - | off
  · simp [hg, hget, hs, hoff]
  by_cases hv : off.socketId ≠ sid ∨ off.status ≠ OfferStatus.pending
  · simp [hg, hget, hs, hoff, hv]
  · simp [hg, hget, hs, hoff, hv]

/-- `corrida_aceita` keeps ride keys unique. -/
theorem hCorridaAceita_rides_keys (st : ServerState) (sid : SocketId) (p : AcceptPayload)
    (hrk : (st.rides.map Prod.fst).Nodup) :
    ((hCorridaAceita st sid p).1.rides.map Prod.fst).Nodup := by
  unfold hCorridaAceita
  by_cases hg : p.rideId = "" ∨ p.offerId = ""
  · simp [hg]
    exact hrk
  rcases hget : alGet p.rideId st.rides with - | r
  · simp [hg, hget]
    exact hrk
  by_cases hs : r.status = RideStatus.searching
  case neg =>
    simp [hg, hget, hs]
    exact hrk
  rcases hoff : alGet p.offerId r.offered with - | off
  · simp [hg, hget, hs, hoff]
    exact hrk
  by_cases hv : off.socketId ≠ sid ∨ off.status ≠ OfferStatus.pending
  · simp [hg, hget, hs, hoff, hv]
    exact hrk
  · simp [hg, hget, hs, hoff, hv]
    exact keys_nodup_alSet _ hrk

/-- Registry-key uniqueness (drivers and rides) is preserved by every step. -/
theorem step_nodups (cfg : Config) (hav : Coord -> Coord -> Rat)
    (st : ServerState) (e : Ev)
    (hd : (st.driversBySocket.map Prod.fst).Nodup)
    (hrk : (st.rides.map Prod.fst).Nodup) :
    ((step cfg hav st e).1.driversBySocket.map Prod.fst).Nodup
      ∧ ((step cfg hav st e).1.rides.map Prod.fst).Nodup := by
  have hdisp : ∀ (st' : ServerState) (rid : RideId),
      (st'.driversBySocket.map Prod.fst).Nodup →
      (st'.rides.map Prod.fst).Nodup →
      ((dispatchRound cfg hav st' rid).1.driversBySocket.map Prod.fst).Nodup
        ∧ ((dispatchRound cfg hav st' rid).1.rides.map Prod.fst).Nodup := by
    intro st' rid hd' hrk'
    constructor
    · rw [dispatchRound_drivers_eq]
      exact hd'
    · rcases dispatchRound_rides_shape cfg hav st' rid with h | ⟨v, h⟩
      · rw [h]; exact hrk'
      · rw [h]; exact keys_nodup_alSet _ hrk'
  cases e with
  | identificar sid p =>
      show ((hIdentificar st sid p).1.driversBySocket.map Prod.fst).Nodup
        ∧ ((hIdentificar st sid p).1.rides.map Prod.fst).Nodup
      unfold hIdentificar
      split_ifs <;> first
        | exact ⟨keys_nodup_alSet _ hd, hrk⟩
        | exact ⟨hd, hrk⟩
  | driverStatus sid b =>
      show ((hDriverStatus st sid b).1.driversBySocket.map Prod.fst).Nodup
        ∧ ((hDriverStatus st sid b).1.rides.map Prod.fst).Nodup
      unfold hDriverStatus
      rcases alGet sid st.driversBySocket with - | rec
      · exact ⟨hd, hrk⟩
      · exact ⟨keys_nodup_alSet _ hd, hrk⟩
  | driverLocalizacao sid p =>
      show ((hDriverLoc st sid p).1.driversBySocket.map Prod.fst).Nodup
        ∧ ((hDriverLoc st sid p).1.rides.map Prod.fst).Nodup
      unfold hDriverLoc
      rcases p.lat with - | lat
      · exact ⟨hd, hrk⟩
      rcases p.lng with - | lng
      · exact ⟨hd, hrk⟩
      rcases alGet sid st.driversBySocket with - | rec
      · rcases p.rideId with - | rid'
        · exact ⟨hd, hrk⟩
        · by_cases h : rid' = "" <;> simp [h] <;> exact ⟨hd, hrk⟩
      · rcases p.rideId with - | rid'
        · exact ⟨keys_nodup_alSet _ hd, hrk⟩
        · by_cases h : rid' = "" <;> simp [h] <;> exact ⟨keys_nodup_alSet _ hd, hrk⟩
  | novaCorrida sid p =>
      show ((hNovaCorrida cfg hav st sid p).1.driversBySocket.map Prod.fst).Nodup
        ∧ ((hNovaCorrida cfg hav st sid p).1.rides.map Prod.fst).Nodup
      by_cases hempty : p.rideId = ""
      · simp only [hNovaCorrida, hempty, if_true]
        exact ⟨hd, hrk⟩
      · have hsplit : hNovaCorrida cfg hav st sid p
            = dispatchRound cfg hav (registerRide st sid p) p.rideId := by
          simp [hNovaCorrida, hempty]
        rw [hsplit]
        exact hdisp (registerRide st sid p) p.rideId hd (keys_nodup_alSet _ hrk)
  | corridaAceita sid p =>
      refine ⟨?_, hCorridaAceita_rides_keys st sid p hrk⟩
      show ((hCorridaAceita st sid p).1.driversBySocket.map Prod.fst).Nodup
      rw [hCorridaAceita_drivers]
      exact hd
  | enviarMensagem sid p =>
      show ((hEnviarMensagem st p).1.driversBySocket.map Prod.fst).Nodup
        ∧ ((hEnviarMensagem st p).1.rides.map Prod.fst).Nodup
      unfold hEnviarMensagem
      rcases p.rideId with - | rid'
      · exact ⟨hd, hrk⟩
      rcases p.message with - | msg
      · exact ⟨hd, hrk⟩
      by_cases h : rid' = "" ∨ msg = "" <;> simp [h] <;> exact ⟨hd, hrk⟩
  | corridaStatus sid p =>
      show ((hCorridaStatus st p).1.driversBySocket.map Prod.fst).Nodup
        ∧ ((hCorridaStatus st p).1.rides.map Prod.fst).Nodup
      unfold hCorridaStatus
      by_cases hg : p.rideId = "" ∨ p.status = ""
      · simp only [hg, if_true]
        exact ⟨hd, hrk⟩
      · by_cases ht : p.status = "completed" ∨ p.status = "canceled"
        · simp only [hg, ht, if_true, if_false]
          exact ⟨hd, ((alDelete_sublist p.rideId st.rides).map Prod.fst).nodup hrk⟩
        · simp only [hg, ht, if_true, if_false]
          exact ⟨hd, hrk⟩
  | disconnect sid =>
      show ((hDisconnect st sid).1.driversBySocket.map Prod.fst).Nodup
        ∧ ((hDisconnect st sid).1.rides.map Prod.fst).Nodup
      unfold hDisconnect
      rcases alGet sid st.driversBySocket with - | rec
      · exact ⟨hd, hrk⟩
      · exact ⟨keys_nodup_alSet _ hd, hrk⟩
  | fire tid =>
      show ((fireTimer cfg hav st tid).1.driversBySocket.map Prod.fst).Nodup
        ∧ ((fireTimer cfg hav st tid).1.rides.map Prod.fst).Nodup
      rcases hfind : st.timers.find? (fun t => t.id = tid) with - | t
      · have hred : fireTimer cfg hav st tid = (st, []) := by
          unfold fireTimer; rw [hfind]
        rw [hred]
        exact ⟨hd, hrk⟩
      obtain ⟨tid', rid', kind', delay'⟩ := t
      rcases kind' with - | - | -
      · have hred : fireTimer cfg hav st tid
            = dispatchRound cfg hav
                { st with timers := st.timers.filter fun t' => decide (t'.id ≠ tid) } rid' := by
          simp only [fireTimer, hfind]
        rw [hred]
        exact hdisp _ rid' hd hrk
      · rcases hrr : alGet rid' st.rides with - | rr
        · have hred : fireTimer cfg hav st tid
              = ({ st with timers := st.timers.filter fun t' => decide (t'.id ≠ tid) }, []) := by
            simp only [fireTimer, hfind]
            rw [hrr]
          rw [hred]
          exact ⟨hd, hrk⟩
        · by_cases hsr : rr.status = RideStatus.searching
          case neg =>
            have hred : fireTimer cfg hav st tid
                = ({ st with timers := st.timers.filter fun t' => decide (t'.id ≠ tid) }, []) := by
              simp only [fireTimer, hfind]
              rw [hrr]
              exact if_pos hsr
            rw [hred]
            exact ⟨hd, hrk⟩
          case pos =>
            have hred : fireTimer cfg hav st tid
                = dispatchRound cfg hav
                    { st with
                        timers := st.timers.filter fun t' => decide (t'.id ≠ tid),
                        rides := alSet rid' { rr with round := rr.round + 1 } st.rides } rid' := by
              simp only [fireTimer, hfind]
              rw [hrr]
              exact if_neg (fun hc => hc hsr)
            rw [hred]
            exact hdisp _ rid' hd (keys_nodup_alSet _ hrk)
      · have hred : fireTimer cfg hav st tid
            = ({ st with
                  timers := st.timers.filter fun t' => decide (t'.id ≠ tid),
                  rooms := alDelete rid' st.rooms }, []) := by
          simp only [fireTimer, hfind]
        rw [hred]
        exact ⟨hd, hrk⟩
  | tick dt => exact ⟨hd, hrk⟩

/- ----------------- C8 ----------------- -/

/-- C8: across any event sequence in which a ride record is not replaced by
a fresh `nova_corrida`, the connections sent `corrida_disponivel` for that
rideId are pairwise distinct; each of them was outside the record's
offered-connections set at the start (every batch member is added to the set
and later rounds exclude its members), and the set only grows along the run. -/
theorem claim8_monotone_solicitation (cfg : Config) (hav : Coord → Coord → ℚ)
    (rid : RideId) (st : ServerState) (evs : List Ev)
    (hd : (st.driversBySocket.map Prod.fst).Nodup)
    (hrk : (st.rides.map Prod.fst).Nodup)
    (hnr : ∀ sid p, Ev.novaCorrida sid p ∈ evs → p.rideId ≠ rid) :
    (dispoTargets rid (run cfg hav st evs).2).Nodup
      ∧ (∀ s ∈ dispoTargets rid (run cfg hav st evs).2,
          ∃ r, alGet rid st.rides = some r ∧ s ∉ r.offeredSockets)
      ∧ (∀ r', alGet rid (run cfg hav st evs).1.rides = some r' →
          ∃ r, alGet rid st.rides = some r
            ∧ ∀ x ∈ r.offeredSockets, x ∈ r'.offeredSockets) := by
  induction evs generalizing st with
  | nil =>
      refine ⟨List.nodup_nil, ?_, ?_⟩
      · intro s hsm; cases hsm
      · intro r' h; exact ⟨r', h, fun x hx => hx⟩
  | cons e es ih =>
      obtain ⟨hs1, hs2, hs3, hs4⟩ := step_c8 cfg hav st e rid hd hrk
        (fun sid p he => hnr sid p (by rw [← he]; exact List.mem_cons_self _ _))
      obtain ⟨hd₁, hrk₁⟩ := step_nodups cfg hav st e hd hrk
      obtain ⟨ih1, ih2, ih3⟩ := ih (step cfg hav st e).1 hd₁ hrk₁
        (fun sid p hm => hnr sid p (List.mem_cons_of_mem _ hm))
      have hrun : run cfg hav st (e :: es)
          = ((run cfg hav (step cfg hav st e).1 es).1,
             (step cfg hav st e).2 ++ (run cfg hav (step cfg hav st e).1 es).2) := rfl
      rw [hrun]
      simp only [dispoTargets_append]
      have hdisj : ∀ s ∈ dispoTargets rid (step cfg hav st e).2,
          s ∉ dispoTargets rid (run cfg hav (step cfg hav st e).1 es).2 := by
        intro s hs₁ hs₂
        obtain ⟨r₁, h₁, hin⟩ := hs3 s hs₁
        obtain ⟨r₂, h₂, hnin⟩ := ih2 s hs₂
        rw [h₁] at h₂
        injection h₂ with h₂
        subst h₂
        exact hnin hin
      refine ⟨?_, ?_, ?_⟩
      · rw [List.nodup_append]
        exact ⟨hs1, ih1, hdisj⟩
      · intro s hsm
        rcases List.mem_append.mp hsm with h | h
        · exact hs2 s h
        · obtain ⟨r₁, h₁, hnin⟩ := ih2 s h
          obtain ⟨r₀, h₀, hsub⟩ := hs4 r₁ h₁
          exact ⟨r₀, h₀, fun hin => hnin (hsub s hin)⟩
      · intro r' h
        obtain ⟨r₁, h₁, hsub₁⟩ := ih3 r' h
        obtain ⟨r₀, h₀, hsub₀⟩ := hs4 r₁ h₁
        exact ⟨r₀, h₀, fun x hx => hsub₁ x (hsub₀ x hx)⟩

/-- `BATCH_SIZE = 1` configuration used to force two solicitation rounds. -/
def cfgB1 : Config := ⟨1, 12000, 3, 30000, false⟩

def rideC8 : Ride :=
  { status := .searching, passengerSid := "p1", passengerName := "Ana",
    pickupAddress := "", destinationAddress := "", pickup := ⟨0, 0⟩, dest := ⟨9, 9⟩,
    routePolyline := none, fare := none, offered := [], offeredSockets := [],
    winnerSid := none, round := 0, timer := some 0 }

def stC8 : ServerState :=
  ⟨[("d2", drvFar), ("d1", drvNear)], [("r8", rideC8)], [("r8", ["p1"])],
    [⟨0, "r8", .retry, 2000⟩], 1, 0, 0⟩

/-- Witness for `claim8_monotone_solicitation`: two timer-driven rounds with
`BATCH_SIZE = 1` solicit `d1` then `d2` — each exactly once. -/
theorem claim8_monotone_solicitation_witness :
    dispoTargets "r8" (run cfgB1 hav2 stC8 [Ev.fire 0, Ev.fire 1]).2 = ["d1", "d2"]
      ∧ (dispoTargets "r8" (run cfgB1 hav2 stC8 [Ev.fire 0, Ev.fire 1]).2).Nodup := by
  have h := claim8_monotone_solicitation cfgB1 hav2 "r8" stC8 [Ev.fire 0, Ev.fire 1]
    (by decide) (by decide) (by intro sid p hm; simp at hm)
  exact ⟨by decide, h.1⟩

/- ----------------- reachable-state invariants ----------------- -/

/-- Every offer of a SEARCHING ride is still PENDING. -/
def PendingInv (st : ServerState) : Prop :=
  ∀ q ∈ st.rides, (Prod.snd q).status = RideStatus.searching →
    ∀ o ∈ (Prod.snd q).offered, (Prod.snd o).status = OfferStatus.pending

theorem dispatchRound_pending (cfg : Config) (hav : Coord → Coord → ℚ)
    (st : ServerState) (rid : RideId) (hP : PendingInv st) :
    PendingInv (dispatchRound cfg hav st rid).1 := by
  rcases hget : alGet rid st.rides with - | r
  · have hid : dispatchRound cfg hav st rid = (st, []) := by
      unfold dispatchRound; simp [hget]
    rw [hid]
    exact hP
  have hmem : (rid, r) ∈ st.rides := alGet_mem hget
  by_cases hs : r.status = RideStatus.searching
  case neg =>
    have hid : dispatchRound cfg hav st rid = (st, []) := by
      unfold dispatchRound; simp [hget, hs]
    rw [hid]
    exact hP
  case pos =>
  by_cases hemp : dispatchBatch cfg hav st r = []
  · by_cases hge : (r.round : Int) ≥ (cfg.MAX_ROUNDS : Int) - 1
    · have hred : (dispatchRound cfg hav st rid).1.rides
          = alSet rid { r with status := RideStatus.failed, timer := none } st.rides := by
        unfold dispatchRound; simp [hget, hs, hemp, hge]
      intro q hq hqs o ho
      rw [hred] at hq
      rcases mem_alSet hq with h | h
      · exact hP q h hqs o ho
      · rw [h] at hqs
        simp at hqs
    · have hred : (dispatchRound cfg hav st rid).1.rides
          = alSet rid { r with round := r.round + 1, timer := some st.nextTimer } st.rides := by
        unfold dispatchRound; simp [hget, hs, hemp, hge]
      intro q hq hqs o ho
      rw [hred] at hq
      rcases mem_alSet hq with h | h
      · exact hP q h hqs o ho
      · rw [h] at ho
        exact hP (rid, r) hmem hs o ho
  · have hne : (dispatchBatch cfg hav st r).isEmpty = false := by
      simp [List.isEmpty_iff, hemp]
    have hred : (dispatchRound cfg hav st rid).1.rides
        = alSet rid { (mintOffers rid st.time (st.time + cfg.OFFER_TTL_MS) r st.nextUid
            (dispatchBatch cfg hav st r)).1 with timer := some st.nextTimer } st.rides := by
      unfold dispatchRound; simp [hget, hs, hne]
    intro q hq hqs o ho
    rw [hred] at hq
    rcases mem_alSet hq with h | h
    · exact hP q h hqs o ho
    · rw [h] at ho
      exact mintOffers_pending rid st.time (st.time + cfg.OFFER_TTL_MS) r st.nextUid
        (dispatchBatch cfg hav st r) (hP (rid, r) hmem hs) o ho

/-- `corrida_aceita` preserves the pending invariant: a successful award
moves the ride out of SEARCHING in the same step that marks offers WON/LOST. -/
theorem hCorridaAceita_pending (st : ServerState) (sid : SocketId) (p : AcceptPayload)
    (hP : PendingInv st) : PendingInv (hCorridaAceita st sid p).1 := by
  unfold hCorridaAceita
  by_cases hg : p.rideId = "" ∨ p.offerId = ""
  · simp only [hg, if_true]
    exact hP
  rcases hget : alGet p.rideId st.rides with - | r
  · simp only [hg, if_false]
    exact hP
  by_cases hs : r.status = RideStatus.searching
  case neg =>
    simp only [hg, if_false]
    rw [if_pos (fun hc => hs hc)]
    exact hP
  case pos =>
  rcases hoff : alGet p.offerId r.offered with - | off
  · simp only [hg, hs, if_false]
    rw [if_neg (by simp [hs])]
    simp only [hoff]
    exact hP
  by_cases hv : off.socketId ≠ sid ∨ off.status ≠ OfferStatus.pending
  · simp only [hg, hs, if_false]
    rw [if_neg (by simp [hs])]
    simp only [hoff]
    rw [if_pos hv]
    exact hP
  · simp only [hg, hs, if_false]
    rw [if_neg (by simp [hs])]
    simp only [hoff]
    rw [if_neg hv]
    intro q hq hqs o ho
    rcases mem_alSet hq with h | h
    · exact hP q h hqs o ho
    · rw [h] at hqs
      simp at hqs

/-- Every event step preserves the pending invariant. -/
theorem step_pending (cfg : Config) (hav : Coord → Coord → ℚ)
    (st : ServerState) (e : Ev) (hP : PendingInv st) :
    PendingInv (step cfg hav st e).1 := by
  cases e with
  | identificar sid p =>
      show PendingInv (hIdentificar st sid p).1
      intro q hq
      rw [(hIdentificar_c8 st sid p "").2] at hq
      exact hP q hq
  | driverStatus sid b =>
      show PendingInv (hDriverStatus st sid b).1
      intro q hq
      rw [(hDriverStatus_c8 st sid b "").2] at hq
      exact hP q hq
  | driverLocalizacao sid p =>
      show PendingInv (hDriverLoc st sid p).1
      intro q hq
      rw [(hDriverLoc_c8 st sid p "").2] at hq
      exact hP q hq
  | novaCorrida sid p =>
      show PendingInv (hNovaCorrida cfg hav st sid p).1
      by_cases hempty : p.rideId = ""
      · simp only [hNovaCorrida, hempty, if_true]
        exact hP
      · have hsplit : hNovaCorrida cfg hav st sid p
            = dispatchRound cfg hav (registerRide st sid p) p.rideId := by
          simp [hNovaCorrida, hempty]
        rw [hsplit]
        refine dispatchRound_pending cfg hav _ _ ?_
        intro q hq hqs o ho
        have hq' : q ∈ alSet p.rideId _ st.rides := hq
        rcases mem_alSet hq' with h | h
        · exact hP q h hqs o ho
        · rw [h] at ho
          simp at ho
  | corridaAceita sid p => exact hCorridaAceita_pending st sid p hP
  | enviarMensagem sid p =>
      show PendingInv (hEnviarMensagem st p).1
      intro q hq
      rw [(hEnviarMensagem_c8 st p "").2] at hq
      exact hP q hq
  | corridaStatus sid p =>
      show PendingInv (hCorridaStatus st p).1
      unfold hCorridaStatus
      by_cases hg : p.rideId = "" ∨ p.status = ""
      · simp only [hg, if_true]
        exact hP
      · by_cases ht : p.status = "completed" ∨ p.status = "canceled"
        · simp only [hg, ht, if_true, if_false]
          intro q hq
          exact hP q ((alDelete_sublist p.rideId st.rides).mem hq)
        · simp only [hg, ht, if_true, if_false]
          exact hP
  | disconnect sid =>
      show PendingInv (hDisconnect st sid).1
      intro q hq
      rw [(hDisconnect_c8 st sid "").2] at hq
      exact hP q hq
  | fire tid =>
      show PendingInv (fireTimer cfg hav st tid).1
      rcases hfind : st.timers.find? (fun t => t.id = tid) with - | t
      · have hred : fireTimer cfg hav st tid = (st, []) := by
          unfold fireTimer; rw [hfind]
        rw [hred]
        exact hP
      obtain ⟨tid', rid', kind', delay'⟩ := t
      rcases kind' with - | - | -
      · have hred : fireTimer cfg hav st tid
            = dispatchRound cfg hav
                { st with timers := st.timers.filter fun t' => decide (t'.id ≠ tid) } rid' := by
          simp only [fireTimer, hfind]
        rw [hred]
        exact dispatchRound_pending cfg hav _ rid' hP
      · rcases hrr : alGet rid' st.rides with - | rr
        · have hred : fireTimer cfg hav st tid
              = ({ st with timers := st.timers.filter fun t' => decide (t'.id ≠ tid) }, []) := by
            simp only [fireTimer, hfind]
            rw [hrr]
          rw [hred]
          exact hP
        · by_cases hsr : rr.status = RideStatus.searching
          case neg =>
            have hred : fireTimer cfg hav st tid
                = ({ st with timers := st.timers.filter fun t' => decide (t'.id ≠ tid) }, []) := by
              simp only [fireTimer, hfind]
              rw [hrr]
              exact if_pos hsr
            rw [hred]
            exact hP
          case pos =>
            have hred : fireTimer cfg hav st tid
                = dispatchRound cfg hav
                    { st with
                        timers := st.timers.filter fun t' => decide (t'.id ≠ tid),
                        rides := alSet rid' { rr with round := rr.round + 1 } st.rides } rid' := by
              simp only [fireTimer, hfind]
              rw [hrr]
              exact if_neg (fun hc => hc hsr)
            rw [hred]
            refine dispatchRound_pending cfg hav _ rid' ?_
            intro q hq hqs o ho
            have hq' : q ∈ alSet rid' { rr with round := rr.round + 1 } st.rides := hq
            rcases mem_alSet hq' with h | h
            · exact hP q h hqs o ho
            · rw [h] at ho
              exact hP (rid', rr) (alGet_mem hrr) hsr o ho
      · have hred : fireTimer cfg hav st tid
            = ({ st with
                  timers := st.timers.filter fun t' => decide (t'.id ≠ tid),
                  rooms := alDelete rid' st.rooms }, []) := by
          simp only [fireTimer, hfind]
        rw [hred]
        exact hP
  | tick dt => exact hP

/-- Every state the server can reach has unique registry keys and only
PENDING offers on SEARCHING rides. -/
theorem reachable_inv (cfg : Config) (hav : Coord → Coord → ℚ) (st : ServerState)
    (h : Reachable cfg hav st) :
    (st.driversBySocket.map Prod.fst).Nodup
      ∧ (st.rides.map Prod.fst).Nodup
      ∧ PendingInv st := by
  induction h with
  | init =>
      refine ⟨by simp [initState], by simp [initState], ?_⟩
      intro q hq
      simp [initState] at hq
  | step h e ih =>
      obtain ⟨hd, hrk, hp⟩ := ih
      obtain ⟨hd', hrk'⟩ := step_nodups _ _ _ _ hd hrk
      exact ⟨hd', hrk', step_pending _ _ _ _ hp⟩

/-- In any reachable state, a SEARCHING ride's offers are all PENDING — the
hypothesis under which the acceptance award produces a unique winner. -/
theorem reachable_searching_all_pending (cfg : Config) (hav : Coord → Coord → ℚ)
    (st : ServerState) (h : Reachable cfg hav st) (rid : RideId) (r : Ride)
    (hget : alGet rid st.rides = some r) (hs : r.status = RideStatus.searching) :
    ∀ q ∈ r.offered, (Prod.snd q).status = OfferStatus.pending :=
  fun q hq => (reachable_inv cfg hav st h).2.2 (rid, r) (alGet_mem hget) hs q hq
